import Mathlib

/-!
TorontoBot (`bot/bot.go`)

A shallow embedding of package `bot`.  The package is glue around four
libraries (text/template, the chat-completion client, encoding/json and the
graph store).  The libraries are not part of the package, so their behaviour is
a parameter (`Services`), except for `json.Unmarshal`, which is embedded below
following the documented behaviour of encoding/json.  The embedded reader is
checked against a separate definition of the JSON text of a value: the text of
every well-formed value is read back as that value (`parseJSON_text`).

State is passed explicitly: a `State` holds the bot (the receiver `b`), the
state of the outside world and a ghost trace with every library call and its
result, in program order.
-/

namespace Bot

/-! ## Go values -/

/-- A Go pointer, given by its address; address 0 is the nil pointer. -/
structure Ptr where
  addr : Nat
deriving DecidableEq, Repr

/-- The nil pointer. -/
def Ptr.null : Ptr := ⟨0⟩

/-- A `context.Context` handed in by the caller; it is only passed through. -/
structure Context where
  id : Nat
deriving DecidableEq, Repr

/-- A Go `error` value.  `errorf format args cause` is the value built by
`fmt.Errorf(format, args..., cause)`; the text is kept unformatted. -/
inductive GoError
  | lib (msg : String)
  | jsonSyntax
  | jsonUnmarshalType (value : String) (field : String)
  | errorf (format : String) (args : List String) (cause : GoError)
deriving DecidableEq, Repr

/-- The outcome of a Go call: it returns, or the goroutine panics. -/
inductive Outcome (α : Type)
  | returned (v : α)
  | panicked (msg : String)
deriving Repr

/-- Go `fmt.Sprintf` restricted to the verb `%s` applied to string arguments:
every `%s` is replaced by the next argument, a missing argument prints as
`%!s(MISSING)`, all other characters are copied. -/
def sprintfChars : List Char → List String → List Char
  | '%' :: 's' :: rest, a :: args => a.data ++ sprintfChars rest args
  | '%' :: 's' :: rest, [] => "%!s(MISSING)".data ++ sprintfChars rest []
  | c :: rest, args => c :: sprintfChars rest args
  | [], _ => []

/-- Go `fmt.Sprintf(format, args...)` for `%s` verbs. -/
def Sprintf (format : String) (args : List String) : String :=
  ⟨sprintfChars format.data args⟩

/-! ## encoding/json

`json.Unmarshal` first checks that the whole input is one JSON text and then
decodes it into the Go value.  The text is read here in two passes over the
input: a scanner that cuts it into tokens, one character at a time, and a
pushdown reader over the tokens that builds the value.  Both are folds over
their input, so they are total.  The input is a Lean `String`: a Go string that
is valid UTF-8. -/

/-- A JSON value.  A number keeps its literal text. -/
inductive JValue
  | null
  | bool (b : Bool)
  | number (lit : String)
  | string (s : String)
  | array (items : List JValue)
  | object (members : List (String × JValue))
deriving Repr

/-- One unit of a string literal: a character, or the value of a `\uXXXX`
escape before surrogate halves are joined. -/
inductive StrUnit
  | char (c : Char)
  | u16 (n : Nat)
deriving DecidableEq, Repr

/-- The tokens of a JSON text. -/
inductive Token
  | lbrace | rbrace | lbrack | rbrack | colon | comma
  | str (s : String)
  | num (lit : String)
  | litTrue | litFalse | litNull
deriving DecidableEq, Repr

/-- JSON white space: space, tab, carriage return, line feed. -/
def isSpace (c : Char) : Bool :=
  c = ' ' || c = '\t' || c = '\r' || c = '\n'

/-- The six structural characters, as tokens. -/
def punct (c : Char) : Option Token :=
  if c = '\x7b' then some .lbrace
  else if c = '\x7d' then some .rbrace
  else if c = '[' then some .lbrack
  else if c = ']' then some .rbrack
  else if c = ':' then some .colon
  else if c = ',' then some .comma
  else none

/-- The value of a hexadecimal digit. -/
def hexVal (c : Char) : Option Nat :=
  if '0' ≤ c ∧ c ≤ '9' then some (c.toNat - '0'.toNat)
  else if 'a' ≤ c ∧ c ≤ 'f' then some (c.toNat - 'a'.toNat + 10)
  else if 'A' ≤ c ∧ c ≤ 'F' then some (c.toNat - 'A'.toNat + 10)
  else none

/-- The character of a one-letter escape `\c`. -/
def escChar (c : Char) : Option Char :=
  if c = '"' then some '"'
  else if c = '\\' then some '\\'
  else if c = '/' then some '/'
  else if c = 'b' then some (Char.ofNat 8)
  else if c = 'f' then some (Char.ofNat 12)
  else if c = 'n' then some '\n'
  else if c = 'r' then some '\r'
  else if c = 't' then some '\t'
  else none

/-- Joining of the units of a string literal, as `unquote` does: a high
surrogate followed by a low surrogate is one character, any other surrogate is
U+FFFD. -/
def joinUnitsFrom : Option Nat → List StrUnit → List Char
  | none, [] => []
  | some _, [] => [Char.ofNat 0xFFFD]
  | none, .char c :: rest => c :: joinUnitsFrom none rest
  | some _, .char c :: rest => Char.ofNat 0xFFFD :: c :: joinUnitsFrom none rest
  | none, .u16 n :: rest =>
    if 0xD800 ≤ n ∧ n < 0xDC00 then joinUnitsFrom (some n) rest
    else if 0xDC00 ≤ n ∧ n < 0xE000 then Char.ofNat 0xFFFD :: joinUnitsFrom none rest
    else Char.ofNat n :: joinUnitsFrom none rest
  | some hi, .u16 n :: rest =>
    if 0xDC00 ≤ n ∧ n < 0xE000 then
      Char.ofNat ((hi - 0xD800) * 1024 + (n - 0xDC00) + 0x10000) :: joinUnitsFrom none rest
    else if 0xD800 ≤ n ∧ n < 0xDC00 then Char.ofNat 0xFFFD :: joinUnitsFrom (some n) rest
    else Char.ofNat 0xFFFD :: Char.ofNat n :: joinUnitsFrom none rest

/-- The characters of a string literal, from its units.  The argument of
`joinUnitsFrom` is the high surrogate that still waits for its low half. -/
def joinUnits (us : List StrUnit) : List Char :=
  joinUnitsFrom none us

/-- The states of the number grammar
`-? (0 | [1-9][0-9]*) (. [0-9]+)? ([eE] [+-]? [0-9]+)?`. -/
inductive NumState
  | start | neg | zero | int | dot | frac | exp | expSign | expDigits | bad
deriving DecidableEq, Repr

/-- One step of the number grammar. -/
def numStep (st : NumState) (c : Char) : NumState :=
  let digit : Bool := decide ('0' ≤ c ∧ c ≤ '9')
  match st with
  | .start => if c = '-' then .neg else if c = '0' then .zero else if digit then .int else .bad
  | .neg => if c = '0' then .zero else if digit then .int else .bad
  | .zero => if c = '.' then .dot else if c = 'e' ∨ c = 'E' then .exp else .bad
  | .int => if digit then .int else if c = '.' then .dot
      else if c = 'e' ∨ c = 'E' then .exp else .bad
  | .dot => if digit then .frac else .bad
  | .frac => if digit then .frac else if c = 'e' ∨ c = 'E' then .exp else .bad
  | .exp => if c = '+' ∨ c = '-' then .expSign else if digit then .expDigits else .bad
  | .expSign => if digit then .expDigits else .bad
  | .expDigits => if digit then .expDigits else .bad
  | .bad => .bad

/-- Whether the characters are a JSON number. -/
def validNumber (cs : List Char) : Bool :=
  match cs.foldl numStep .start with
  | .zero | .int | .frac | .expDigits => true
  | _ => false

/-- The token of a run of characters outside strings: a literal name or a
number. -/
def classifyBare (cs : List Char) : Option Token :=
  if cs = "true".data then some .litTrue
  else if cs = "false".data then some .litFalse
  else if cs = "null".data then some .litNull
  else if validNumber cs then some (.num ⟨cs⟩)
  else none

/-- Where the scanner is inside the text. -/
inductive LexMode
  | between
  | bare (acc : List Char)
  | inString (acc : List StrUnit)
  | inEsc (acc : List StrUnit)
  | inHex (acc : List StrUnit) (n : Nat) (k : Nat)
deriving Repr

/-- The state of the scanner: the tokens read so far (latest first), the mode,
and whether the text has already been rejected. -/
structure LexState where
  toks : List Token
  mode : LexMode
  failed : Bool
deriving Repr

/-- Closing of a run of characters outside strings. -/
def LexState.flush (st : LexState) (acc : List Char) : LexState :=
  match classifyBare acc.reverse with
  | some t => { st with toks := t :: st.toks, mode := .between }
  | none => { st with failed := true }

/-- A character read between tokens. -/
def LexState.fresh (st : LexState) (c : Char) : LexState :=
  if isSpace c then { st with mode := .between }
  else if c = '"' then { st with mode := .inString [] }
  else match punct c with
    | some t => { st with toks := t :: st.toks, mode := .between }
    | none => { st with mode := .bare [c] }

/-- One step of the scanner. -/
def lexStep (st : LexState) (c : Char) : LexState :=
  if st.failed then st else
  match st.mode with
  | .between => st.fresh c
  | .bare acc =>
    if isSpace c ∨ c = '"' ∨ (punct c).isSome then
      let st1 := st.flush acc
      if st1.failed then st1 else st1.fresh c
    else { st with mode := .bare (c :: acc) }
  | .inString acc =>
    if c = '"' then
      { st with toks := .str ⟨joinUnits acc.reverse⟩ :: st.toks, mode := .between }
    else if c = '\\' then { st with mode := .inEsc acc }
    else if c.toNat < 0x20 then { st with failed := true }
    else { st with mode := .inString (.char c :: acc) }
  | .inEsc acc =>
    if c = 'u' then { st with mode := .inHex acc 0 0 }
    else match escChar c with
      | some e => { st with mode := .inString (.char e :: acc) }
      | none => { st with failed := true }
  | .inHex acc n k =>
    match hexVal c with
    | some d =>
      if k = 3 then { st with mode := .inString (.u16 (n * 16 + d) :: acc) }
      else { st with mode := .inHex acc (n * 16 + d) (k + 1) }
    | none => { st with failed := true }

/-- The tokens of a text, or `none` when it is not made of JSON tokens. -/
def tokenize (cs : List Char) : Option (List Token) :=
  let st := cs.foldl lexStep ⟨[], .between, false⟩
  if st.failed then none else
  match st.mode with
  | .between => some st.toks.reverse
  | .bare acc =>
    let st1 := st.flush acc
    if st1.failed then none else some st1.toks.reverse
  | _ => none

/-- An array or object that is still open; its parts are kept latest first. -/
inductive Frame
  | arr (items : List JValue)
  | obj (members : List (String × JValue)) (key : Option String)

/-- What the reader expects next. -/
inductive Phase
  | beginValue
  | beginValueOrEmpty
  | beginStringOrEmpty
  | beginString
  | objectKey
  | afterValue
  | endTop (v : JValue)
  | failed

/-- The state of the reader: the open arrays and objects, innermost first, and
the phase. -/
structure ReadState where
  stack : List Frame
  phase : Phase

/-- The nesting depth above which the scanner of encoding/json rejects a
text. -/
def maxNestingDepth : Nat := 10000

/-- A finished value is handed to the innermost open array or object, or is
the value of the text. -/
def deliver (v : JValue) : List Frame → ReadState
  | [] => ⟨[], .endTop v⟩
  | .arr items :: st => ⟨.arr (v :: items) :: st, .afterValue⟩
  | .obj ms (some k) :: st => ⟨.obj ((k, v) :: ms) none :: st, .afterValue⟩
  | .obj _ none :: _ => ⟨[], .failed⟩

/-- Opening of an array or object, refused beyond the nesting limit. -/
def push (f : Frame) (next : Phase) (stack : List Frame) : ReadState :=
  if stack.length + 1 ≤ maxNestingDepth then ⟨f :: stack, next⟩ else ⟨[], .failed⟩

/-- A token read where a value may start. -/
def beginValue (stack : List Frame) : Token → ReadState
  | .str s => deliver (.string s) stack
  | .num lit => deliver (.number lit) stack
  | .litTrue => deliver (.bool true) stack
  | .litFalse => deliver (.bool false) stack
  | .litNull => deliver .null stack
  | .lbrack => push (.arr []) .beginValueOrEmpty stack
  | .lbrace => push (.obj [] none) .beginStringOrEmpty stack
  | _ => ⟨[], .failed⟩

/-- A token read where an object key must start. -/
def beginKey (stack : List Frame) : Token → ReadState
  | .str k =>
    match stack with
    | .obj ms _ :: st => ⟨.obj ms (some k) :: st, .objectKey⟩
    | _ => ⟨[], .failed⟩
  | _ => ⟨[], .failed⟩

/-- One step of the reader. -/
def readStep (rs : ReadState) (t : Token) : ReadState :=
  match rs.phase with
  | .beginValue => beginValue rs.stack t
  | .beginValueOrEmpty =>
    match t, rs.stack with
    | .rbrack, .arr items :: st => deliver (.array items.reverse) st
    | _, _ => beginValue rs.stack t
  | .beginStringOrEmpty =>
    match t, rs.stack with
    | .rbrace, .obj ms none :: st => deliver (.object ms.reverse) st
    | _, _ => beginKey rs.stack t
  | .beginString => beginKey rs.stack t
  | .objectKey =>
    match t with
    | .colon => ⟨rs.stack, .beginValue⟩
    | _ => ⟨[], .failed⟩
  | .afterValue =>
    match t, rs.stack with
    | .comma, .arr _ :: _ => ⟨rs.stack, .beginValue⟩
    | .rbrack, .arr items :: st => deliver (.array items.reverse) st
    | .comma, .obj _ none :: _ => ⟨rs.stack, .beginString⟩
    | .rbrace, .obj ms none :: st => deliver (.object ms.reverse) st
    | _, _ => ⟨[], .failed⟩
  | .endTop _ => ⟨[], .failed⟩
  | .failed => ⟨[], .failed⟩

/-- The value of a token list, or `none` when it is not one JSON value. -/
def readTokens (ts : List Token) : Option JValue :=
  match (ts.foldl readStep ⟨[], .beginValue⟩).phase with
  | .endTop v => some v
  | _ => none

/-- The value of a JSON text, or `none` when the text is not valid JSON. -/
def parseJSON (data : String) : Option JValue :=
  match tokenize data.data with
  | some ts => readTokens ts
  | none => none

/-- Whether the text is valid JSON (`json.Valid`). -/
def Valid (data : String) : Bool :=
  (parseJSON data).isSome

/-- The name used in an `UnmarshalTypeError` for a JSON value. -/
def JValue.kind : JValue → String
  | .null => "null"
  | .bool _ => "bool"
  | .number _ => "number"
  | .string _ => "string"
  | .array _ => "array"
  | .object _ => "object"

/-- Case folding of a key character, as far as it can reach an ASCII letter:
the ASCII letters fold to upper case, U+017F (long s) folds to S and U+212A
(Kelvin sign) folds to K. -/
def foldChar (c : Char) : Char :=
  if 'a' ≤ c ∧ c ≤ 'z' then Char.ofNat (c.toNat - 32)
  else if c = Char.ofNat 0x17F then 'S'
  else if c = Char.ofNat 0x212A then 'K'
  else c

/-- Whether an object key selects the struct field called `name`: the names
are equal, or equal after case folding.  The field names of this package are
ASCII letters and no two of them are equal after folding. -/
def fieldMatches (name key : String) : Bool :=
  name = key || name.data.map foldChar = key.data.map foldChar

/-- The first error is the one `Unmarshal` returns. -/
def saveError (saved : Option GoError) (e : GoError) : Option GoError :=
  match saved with
  | some s => some s
  | none => some e

/-- Storing a JSON value into a Go `string` field: a string is stored, null
leaves the field alone, any other value is a type error. -/
def storeString (field : String) (v : JValue) (old : String) (saved : Option GoError) :
    String × Option GoError :=
  match v with
  | .string s => (s, saved)
  | .null => (old, saved)
  | _ => (old, saveError saved (.jsonUnmarshalType v.kind field))

/-- Storing a JSON value into a Go `bool` field. -/
def storeBool (field : String) (v : JValue) (old : Bool) (saved : Option GoError) :
    Bool × Option GoError :=
  match v with
  | .bool b => (b, saved)
  | .null => (old, saved)
  | _ => (old, saveError saved (.jsonUnmarshalType v.kind field))

/-! ## Library types -/

/-- The value of a Go `interface{}` as used for the camera map. -/
inductive GoAny
  | int (i : Int)
  | float64 (q : ℚ)
  | mapFloat64 (m : List (String × ℚ))
  | mapAny (m : List (String × GoAny))

/-- The fields of `citygraph.Module` that `SaveToGraph` sets; every other field
keeps its zero value. -/
structure Module where
  ID : String
  Name : String
  Headline : String
  Categories : List String
  Creators : List String
  Camera : List (String × GoAny)
  FeatureImage : String
  Description : String
  PubDate : String
  CodeCredit : String

/-- The query value returned by `(*citygraph.Module).VertexQuery`. -/
structure VertexQuery where
  repr : String
deriving DecidableEq, Repr

/-- One `openai.ChatCompletionMessage`. -/
structure ChatCompletionMessage where
  Role : String
  Content : String
deriving DecidableEq, Repr

/-- The fields of `openai.ChatCompletionRequest` that the bot sets; every other
field keeps its zero value. -/
structure ChatCompletionRequest where
  Model : String
  Messages : List ChatCompletionMessage
  Temperature : ℚ
deriving DecidableEq, Repr

/-- One `openai.ChatCompletionChoice`. -/
structure ChatCompletionChoice where
  Message : ChatCompletionMessage
deriving DecidableEq, Repr

/-- The field of `openai.ChatCompletionResponse` that the bot reads. -/
structure ChatCompletionResponse where
  Choices : List ChatCompletionChoice
deriving DecidableEq, Repr

/-- The value `openai.GPT3Dot5Turbo`. -/
def GPT3Dot5Turbo : String := "gpt-3.5-turbo"

/-- The value `openai.ChatMessageRoleUser`. -/
def ChatMessageRoleUser : String := "user"

/-- The data handed to `(*template.Template).Execute`: the fields of the
anonymous struct, by name. -/
abbrev TemplateData := List (String × String)

/-! ## Constants of the package -/

/-- The openai model to query. -/
def Model : String := GPT3Dot5Turbo

/-- The response temperature asked from the model: the Go constant `0.1`, kept
as the exact decimal. -/
def RespTemp : ℚ := 1 / 10

/-! ## The bot -/

/-- The struct `TorontoBot`. -/
structure TorontoBot where
  Hostname : String
  sqlGenPrompt : Ptr
  chartSelectPrompt : Ptr
  graphStore : Ptr
  ai : Ptr
  db : Ptr
deriving DecidableEq, Repr

/-- The struct `SQLResponse`. -/
structure SQLResponse where
  Schema : String
  Applicability : String
  SQL : String
  MissingData : String
deriving DecidableEq, Repr

/-- The struct `ChartSelectResponse`.  `D` is the struct `viz.DataEntry`, which
is declared in another package.  `Data` is a slice of pointers: `none` is the nil
slice, and an entry `none` is a nil pointer. -/
structure ChartSelectResponse (D : Type) where
  Chart : String
  Title : String
  Data : Option (List (Option D))
  ValueIsCurrency : Bool

/-- The enumeration `ChartType`. -/
inductive ChartType
  | ChartTypeUnknown
  | ChartTypeBar
  | ChartTypeLine
  | ChartTypePie
  | ChartTypeScatter
deriving DecidableEq, Repr

/-- The integer value of a `ChartType` (`iota`). -/
def ChartType.toInt : ChartType → Int
  | .ChartTypeUnknown => 0
  | .ChartTypeBar => 1
  | .ChartTypeLine => 2
  | .ChartTypePie => 3
  | .ChartTypeScatter => 4

/-! ## Decoding into the response structs -/

/-- The zero value of `SQLResponse`. -/
def SQLResponse.zero : SQLResponse := ⟨"", "", "", ""⟩

/-- One object member stored into a `SQLResponse`: the member whose key
selects a field is stored into it, any other member is skipped. -/
def SQLResponse.storeMember (acc : SQLResponse × Option GoError) (m : String × JValue) :
    SQLResponse × Option GoError :=
  if fieldMatches "Schema" m.1 then
    let r := storeString "SQLResponse.Schema" m.2 acc.1.Schema acc.2
    ({ acc.1 with Schema := r.1 }, r.2)
  else if fieldMatches "Applicability" m.1 then
    let r := storeString "SQLResponse.Applicability" m.2 acc.1.Applicability acc.2
    ({ acc.1 with Applicability := r.1 }, r.2)
  else if fieldMatches "SQL" m.1 then
    let r := storeString "SQLResponse.SQL" m.2 acc.1.SQL acc.2
    ({ acc.1 with SQL := r.1 }, r.2)
  else if fieldMatches "MissingData" m.1 then
    let r := storeString "SQLResponse.MissingData" m.2 acc.1.MissingData acc.2
    ({ acc.1 with MissingData := r.1 }, r.2)
  else acc

/-- Decoding of a JSON value into a zero `SQLResponse`: an object is stored
member by member, null changes nothing, any other value is a type error. -/
def SQLResponse.decode : JValue → SQLResponse × Option GoError
  | .object members => members.foldl SQLResponse.storeMember (SQLResponse.zero, none)
  | .null => (SQLResponse.zero, none)
  | v => (SQLResponse.zero, some (.jsonUnmarshalType v.kind "SQLResponse"))

/-- The names of the fields of `SQLResponse`. -/
def SQLResponse.fieldNames : List String :=
  ["Schema", "Applicability", "SQL", "MissingData"]

/-- Whether a JSON value can be stored into a Go `string`: it is a string, or
null. -/
def JValue.isStringOrNull : JValue → Bool
  | .string _ => true
  | .null => true
  | _ => false

/-- The zero value of `ChartSelectResponse`. -/
def ChartSelectResponse.zero {D : Type} : ChartSelectResponse D := ⟨"", "", none, false⟩

/-- One array element stored at one index of a slice of `*viz.DataEntry`.
`old` is the pointer the slice holds at that index, `none` when it is nil.  A
null element sets the pointer to nil; any other element is decoded into the
entry the pointer refers to, or into a new zero entry when the pointer is
nil. -/
def storeEntry {D : Type} (entry : D → JValue → D × Option GoError) (zero : D)
    (old : Option D) (v : JValue) (saved : Option GoError) : Option D × Option GoError :=
  match v with
  | .null => (none, saved)
  | _ =>
    let r := entry (old.getD zero) v
    (some r.1,
      match r.2 with
      | some e => saveError saved e
      | none => saved)

/-- The elements of a JSON array stored into a slice, index by index from 0.
`backing` holds the pointers of the backing array from the current index on;
past its end the pointers are nil. -/
def storeElems {D : Type} (entry : D → JValue → D × Option GoError) (zero : D) :
    List JValue → List (Option D) → Option GoError → List (Option D) × Option GoError
  | [], _, saved => ([], saved)
  | v :: vs, backing, saved =>
    let r := storeEntry entry zero backing.head?.join v saved
    let rest := storeElems entry zero vs backing.tail r.2
    (r.1 :: rest.1, rest.2)

/-- Storing a JSON value into the field `Data`, a slice of `*viz.DataEntry`.
`old` is the slice before and `stale` are the pointers its backing array holds
past its length.  An array is decoded into the backing array from index 0 and
the slice is cut to the length of the array, so a second array for the same
key is decoded into the entries of the first; an empty array makes a new empty
slice; null makes the slice nil; any other value is a type error. -/
def storeData {D : Type} (entry : D → JValue → D × Option GoError) (zero : D) (v : JValue)
    (old : Option (List (Option D))) (stale : List (Option D)) (saved : Option GoError) :
    Option (List (Option D)) × List (Option D) × Option GoError :=
  match v with
  | .array [] => (some [], [], saved)
  | .array items =>
    let backing := old.getD [] ++ stale
    let r := storeElems entry zero items backing saved
    (some r.1, backing.drop items.length, r.2)
  | .null => (none, [], saved)
  | _ => (old, stale, saveError saved (.jsonUnmarshalType v.kind "ChartSelectResponse.Data"))

/-- The state of decoding into a `ChartSelectResponse`: the record, the
pointers the backing array of `Data` holds past its length, and the first
error. -/
structure ChartDecoding (D : Type) where
  resp : ChartSelectResponse D
  stale : List (Option D)
  saved : Option GoError

/-- One object member stored into a `ChartSelectResponse`. -/
def ChartSelectResponse.storeMember {D : Type} (entry : D → JValue → D × Option GoError)
    (zero : D) (acc : ChartDecoding D) (m : String × JValue) : ChartDecoding D :=
  if fieldMatches "Chart" m.1 then
    let r := storeString "ChartSelectResponse.Chart" m.2 acc.resp.Chart acc.saved
    { acc with resp := { acc.resp with Chart := r.1 }, saved := r.2 }
  else if fieldMatches "Title" m.1 then
    let r := storeString "ChartSelectResponse.Title" m.2 acc.resp.Title acc.saved
    { acc with resp := { acc.resp with Title := r.1 }, saved := r.2 }
  else if fieldMatches "Data" m.1 then
    let r := storeData entry zero m.2 acc.resp.Data acc.stale acc.saved
    { resp := { acc.resp with Data := r.1 }, stale := r.2.1, saved := r.2.2 }
  else if fieldMatches "ValueIsCurrency" m.1 then
    let r := storeBool "ChartSelectResponse.ValueIsCurrency" m.2 acc.resp.ValueIsCurrency
      acc.saved
    { acc with resp := { acc.resp with ValueIsCurrency := r.1 }, saved := r.2 }
  else acc

/-- Decoding of a JSON value into a zero `ChartSelectResponse`.  `entry old v`
decodes `v` into the `viz.DataEntry` `old` and `zero` is the zero entry. -/
def ChartSelectResponse.decode {D : Type} (entry : D → JValue → D × Option GoError)
    (zero : D) : JValue → ChartSelectResponse D × Option GoError
  | .object members =>
    let r := members.foldl (ChartSelectResponse.storeMember entry zero)
      ⟨ChartSelectResponse.zero, [], none⟩
    (r.resp, r.saved)
  | .null => (ChartSelectResponse.zero, none)
  | v => (ChartSelectResponse.zero, some (.jsonUnmarshalType v.kind "ChartSelectResponse"))

/-- Go `json.Unmarshal(data, &v)` for a zero `v`: a text that is not valid JSON
is a syntax error and leaves `v` alone; a valid text is decoded by `decode`,
which gives the stored value and the first type error, if any. -/
def Unmarshal {α : Type} (decode : JValue → α × Option GoError) (zero : α) (data : String) :
    α × Option GoError :=
  match parseJSON data with
  | none => (zero, some .jsonSyntax)
  | some v => decode v

/-! ## The text of a JSON value -/

/-- The hexadecimal digit of a number below 16, in lower case. -/
def hexDigit (n : Nat) : Char :=
  Char.ofNat (if n < 10 then 48 + n else 87 + n)

/-- The text of one character inside a JSON string literal: the quotation
mark and the backslash are escaped with a backslash, a control character is
written `\u00XX`, any other character stands for itself. -/
def escapeChar (c : Char) : List Char :=
  if c = '"' then ['\\', '"']
  else if c = '\\' then ['\\', '\\']
  else if c.toNat < 0x20 then
    ['\\', 'u', '0', '0', hexDigit (c.toNat / 16), hexDigit (c.toNat % 16)]
  else [c]

/-- The escaped characters of a string. -/
def escapeChars : List Char → List Char
  | [] => []
  | c :: cs => escapeChar c ++ escapeChars cs

/-- The string literal of a string. -/
def quoteChars (s : String) : List Char :=
  '"' :: escapeChars s.data ++ ['"']

mutual
/-- The compact JSON text of a value: no white space, members in the order of
the value. -/
def JValue.chars : JValue → List Char
  | .null => "null".data
  | .bool true => "true".data
  | .bool false => "false".data
  | .number lit => lit.data
  | .string s => quoteChars s
  | .array [] => ['[', ']']
  | .array (v :: vs) => '[' :: v.chars ++ itemsChars vs ++ [']']
  | .object [] => ['\x7b', '\x7d']
  | .object ((k, v) :: ms) =>
    '\x7b' :: quoteChars k ++ ':' :: v.chars ++ membersChars ms ++ ['\x7d']
/-- The text of the items of an array after the first, each after a comma. -/
def itemsChars : List JValue → List Char
  | [] => []
  | v :: vs => ',' :: v.chars ++ itemsChars vs
/-- The text of the members of an object after the first, each after a
comma. -/
def membersChars : List (String × JValue) → List Char
  | [] => []
  | (k, v) :: ms => ',' :: quoteChars k ++ ':' :: v.chars ++ membersChars ms
end

/-- The compact JSON text of a value. -/
def JValue.text (v : JValue) : String := ⟨v.chars⟩

mutual
/-- The tokens of the text of a value. -/
def JValue.tokens : JValue → List Token
  | .null => [.litNull]
  | .bool true => [.litTrue]
  | .bool false => [.litFalse]
  | .number lit => [.num lit]
  | .string s => [.str s]
  | .array [] => [.lbrack, .rbrack]
  | .array (v :: vs) => .lbrack :: v.tokens ++ itemsTokens vs ++ [.rbrack]
  | .object [] => [.lbrace, .rbrace]
  | .object ((k, v) :: ms) =>
    .lbrace :: .str k :: .colon :: v.tokens ++ membersTokens ms ++ [.rbrace]
/-- The tokens of the items of an array after the first. -/
def itemsTokens : List JValue → List Token
  | [] => []
  | v :: vs => .comma :: v.tokens ++ itemsTokens vs
/-- The tokens of the members of an object after the first. -/
def membersTokens : List (String × JValue) → List Token
  | [] => []
  | (k, v) :: ms => .comma :: .str k :: .colon :: v.tokens ++ membersTokens ms
end

mutual
/-- How deep arrays and objects are nested in a value. -/
def JValue.depth : JValue → Nat
  | .array items => 1 + itemsDepth items
  | .object ms => 1 + membersDepth ms
  | _ => 0
/-- The largest depth among the items of an array. -/
def itemsDepth : List JValue → Nat
  | [] => 0
  | v :: vs => max v.depth (itemsDepth vs)
/-- The largest depth among the members of an object. -/
def membersDepth : List (String × JValue) → Nat
  | [] => 0
  | (_, v) :: ms => max v.depth (membersDepth ms)
end

mutual
/-- Whether every number in a value is a JSON number. -/
def JValue.numbersValid : JValue → Bool
  | .number lit => validNumber lit.data
  | .array items => itemsNumbersValid items
  | .object ms => membersNumbersValid ms
  | _ => true
/-- Whether every number in the items of an array is a JSON number. -/
def itemsNumbersValid : List JValue → Bool
  | [] => true
  | v :: vs => v.numbersValid && itemsNumbersValid vs
/-- Whether every number in the members of an object is a JSON number. -/
def membersNumbersValid : List (String × JValue) → Bool
  | [] => true
  | (_, v) :: ms => v.numbersValid && membersNumbersValid ms
end

/-- A value that has a JSON text: its numbers are JSON numbers and it is not
nested deeper than the reader allows. -/
def JValue.WellFormed (v : JValue) : Prop :=
  v.numbersValid = true ∧ v.depth ≤ maxNestingDepth

/-- Whether a character ends a run of characters outside strings. -/
def isDelim (c : Char) : Bool :=
  isSpace c || c = '"' || (punct c).isSome

/-- The tokens the scanner gives once the text has ended. -/
def lexFinish (st : LexState) : Option (List Token) :=
  if st.failed then none else
  match st.mode with
  | .between => some st.toks.reverse
  | .bare acc =>
    let st1 := st.flush acc
    if st1.failed then none else some st1.toks.reverse
  | _ => none

/-- The unit the scanner reads for the text of one character of a string. -/
def charUnit (c : Char) : StrUnit :=
  if c.toNat < 0x20 then .u16 c.toNat else .char c

/-- Whether a text may follow a value: it is empty or starts with a character
that ends a run of characters outside strings. -/
def boundary : List Char → Bool
  | [] => true
  | d :: _ => isDelim d

/-! ## The JSON encoding of the response records -/

section Encoding

variable {D : Type}

/-- The members of the JSON object that encodes a `SQLResponse`: one per
field, under the name of the field, with the field as a JSON string. -/
def SQLResponse.members (r : SQLResponse) : List (String × JValue) :=
  [("Schema", .string r.Schema), ("Applicability", .string r.Applicability),
    ("SQL", .string r.SQL), ("MissingData", .string r.MissingData)]

/-- The JSON value `v` encodes the record `r`: it is an object that holds the
members of `r`, each once, in any order. -/
def SQLResponse.EncodedBy (r : SQLResponse) (v : JValue) : Prop :=
  ∃ ms, v = .object ms ∧ ms.Perm r.members

/-- The JSON value `v` encodes the entry pointer `e`: null for a nil pointer,
otherwise a value that decodes into a new entry as the entry pointed to,
without error. -/
def EntryEncodedBy (entry : D → JValue → D × Option GoError) (zero : D)
    (e : Option D) (v : JValue) : Prop :=
  match e with
  | none => v = .null
  | some d => v ≠ .null ∧ entry zero v = (d, none)

/-- The JSON value `v` encodes the slice `data`: null for the nil slice,
otherwise an array with one value per entry pointer. -/
def DataEncodedBy (entry : D → JValue → D × Option GoError) (zero : D)
    (data : Option (List (Option D))) (v : JValue) : Prop :=
  match data with
  | none => v = .null
  | some l => ∃ items, v = .array items ∧ List.Forall₂ (EntryEncodedBy entry zero) l items

/-- The members of the JSON object that encodes a `ChartSelectResponse`, with
`dataJ` for the field `Data`. -/
def ChartSelectResponse.members (r : ChartSelectResponse D) (dataJ : JValue) :
    List (String × JValue) :=
  [("Chart", .string r.Chart), ("Title", .string r.Title), ("Data", dataJ),
    ("ValueIsCurrency", .bool r.ValueIsCurrency)]

/-- The JSON value `v` encodes the record `r`: it is an object that holds the
members of `r`, each once, in any order, with an encoding of `r.Data` for the
field `Data`. -/
def ChartSelectResponse.EncodedBy (entry : D → JValue → D × Option GoError) (zero : D)
    (r : ChartSelectResponse D) (v : JValue) : Prop :=
  ∃ ms dataJ, v = .object ms ∧ DataEncodedBy entry zero r.Data dataJ ∧ ms.Perm (r.members dataJ)

end Encoding

/-! ## The outside world -/

/-- A library call together with what it returned. -/
inductive Event (D : Type)
  | timeNowFormat (layout : String) (out : String)
  | templateExecute (t : Ptr) (data : TemplateData) (out : String) (err : Option GoError)
  | logPrintf (format : String) (args : List String)
  | fmtPrintln (args : List String)
  | fmtPrintfChart (format : String) (resp : ChartSelectResponse D)
  | createChatCompletion (client : Ptr) (ctx : Context) (req : ChatCompletionRequest)
      (resp : ChatCompletionResponse) (err : Option GoError)
  | readDataTable (db : Ptr) (sqlQuery : String) (table : String) (err : Option GoError)
  | writeModule (store : Ptr) (ctx : Context) (mod : Module) (err : Option GoError)
  | vertexQuery (mod : Module) (q : VertexQuery) (err : Option GoError)
  | writeBodyText (store : Ptr) (ctx : Context) (q : VertexQuery) (body : String)
      (err : Option GoError)
  | writeJS (store : Ptr) (ctx : Context) (q : VertexQuery) (js : String)
      (err : Option GoError)
  | slugID (mod : Module) (slug : String) (err : Option GoError)
  | slugTitle (mod : Module) (slug : String)

/-- The behaviour of the libraries the bot calls.  `σ` is the state of the
outside world (the API, the database, the graph store, the clock).  A call that
may change the world returns the new world, also when it returns an error;
reading the clock and executing a template only read it.  The methods of
`citygraph.Module` are functions of the module, and the store does not change
the module it is handed.  `viz.DataEntry` is declared in another package:
`zeroDataEntry` is its zero value and `decodeDataEntry old v` is the entry after
the JSON value `v` has been decoded into the entry `old`, with the first error
of that decoding.  An `error`
result is `none` for nil.  Every library call is taken to return: a panic
raised inside a library is not part of this model. -/
structure Services (σ D : Type) where
  timeNowFormat : σ → String → String
  templateExecute : σ → Ptr → TemplateData → String × Option GoError
  createChatCompletion : σ → Ptr → Context → ChatCompletionRequest →
    (ChatCompletionResponse × Option GoError) × σ
  readDataTable : σ → Ptr → String → (String × Option GoError) × σ
  writeModule : σ → Ptr → Context → Module → Option GoError × σ
  vertexQuery : Module → VertexQuery × Option GoError
  writeBodyText : σ → Ptr → Context → VertexQuery → String → Option GoError × σ
  writeJS : σ → Ptr → Context → VertexQuery → String → Option GoError × σ
  slugID : Module → String × Option GoError
  slugTitle : Module → String
  zeroDataEntry : D
  decodeDataEntry : D → JValue → D × Option GoError

/-- The state a method of the bot runs in: the bot itself, the outside world
and the trace of library calls so far, oldest first. -/
structure State (σ D : Type) where
  bot : TorontoBot
  world : σ
  trace : List (Event D)

/-- The state after a library call that only reads the world. -/
def State.record {σ D : Type} (s : State σ D) (e : Event D) : State σ D :=
  { s with trace := s.trace ++ [e] }

/-- The state after a library call that leaves the world as `w`. -/
def State.step {σ D : Type} (s : State σ D) (e : Event D) (w : σ) : State σ D :=
  { s with trace := s.trace ++ [e], world := w }

/-- The library calls made between two states. -/
def emitted {σ D : Type} (s s1 : State σ D) : List (Event D) :=
  s1.trace.drop s.trace.length

/-! ## The methods of `TorontoBot` -/

section Methods

variable {σ D : Type}

/-- The request both prompts are sent with. -/
def chatRequest (query : String) : ChatCompletionRequest :=
  { Model := Model
    Messages := [{ Role := ChatMessageRoleUser, Content := query }]
    Temperature := RespTemp }

/-- The panic of the Go runtime for `xs[0]` on an empty slice. -/
def indexPanic : String := "runtime error: index out of range [0] with length 0"

/-- The method `SQLAnalysis`. -/
def SQLAnalysis (sv : Services σ D) (ctx : Context) (question : String) (s : State σ D) :
    Outcome (Option SQLResponse × Option GoError) × State σ D :=
  let date := sv.timeNowFormat s.world "January 2, 2006"
  let s1 := s.record (.timeNowFormat "January 2, 2006" date)
  let data : TemplateData := [("Date", date), ("Command", question)]
  let ex := sv.templateExecute s1.world s1.bot.sqlGenPrompt data
  let s2 := s1.record (.templateExecute s1.bot.sqlGenPrompt data ex.1 ex.2)
  match ex.2 with
  | some err => (.returned (none, some (.errorf "executing template: %+v" [] err)), s2)
  | none =>
    let query := ex.1
    let s3 := s2.record (.logPrintf "sending request to openai: %q\n" [query])
    let req := chatRequest query
    let r := sv.createChatCompletion s3.world s3.bot.ai ctx req
    let s4 := s3.step (.createChatCompletion s3.bot.ai ctx req r.1.1 r.1.2) r.2
    match r.1.2 with
    | some err => (.returned (none, some (.errorf "CreateChatCompletion: %v" [] err)), s4)
    | none =>
      match r.1.1.Choices with
      | [] => (.panicked indexPanic, s4)
      | choice :: _ =>
        let content := choice.Message.Content
        let s5 := s4.record (.logPrintf "Got reply: %s\n" [content])
        let u := Unmarshal SQLResponse.decode SQLResponse.zero content
        match u.2 with
        | some err =>
          (.returned (none, some (.errorf "unmarshalling response %q: %v" [content] err)), s5)
        | none => (.returned (some u.1, none), s5)

/-- The method `LoadResults`. -/
def LoadResults (sv : Services σ D) (sqlQuery : String) (s : State σ D) :
    (String × Option GoError) × State σ D :=
  let s1 := s.record (.fmtPrintln ["running sqlQuery:", sqlQuery])
  let r := sv.readDataTable s1.world s1.bot.db sqlQuery
  (r.1, s1.step (.readDataTable s1.bot.db sqlQuery r.1.1 r.1.2) r.2)

/-- The method `SelectChart`. -/
def SelectChart (sv : Services σ D) (ctx : Context) (question dataTable : String)
    (s : State σ D) :
    Outcome (Option (ChartSelectResponse D) × Option GoError) × State σ D :=
  let data : TemplateData := [("Title", question), ("Data", dataTable)]
  let ex := sv.templateExecute s.world s.bot.chartSelectPrompt data
  let s2 := s.record (.templateExecute s.bot.chartSelectPrompt data ex.1 ex.2)
  match ex.2 with
  | some err => (.returned (none, some (.errorf "executing template: %+v" [] err)), s2)
  | none =>
    let query := ex.1
    let s3 := s2.record (.logPrintf "sending request to openai: %q\n" [query])
    let req := chatRequest query
    let r := sv.createChatCompletion s3.world s3.bot.ai ctx req
    let s4 := s3.step (.createChatCompletion s3.bot.ai ctx req r.1.1 r.1.2) r.2
    match r.1.2 with
    | some err => (.returned (none, some (.errorf "CreateChatCompletion: %v" [] err)), s4)
    | none =>
      match r.1.1.Choices with
      | [] => (.panicked indexPanic, s4)
      | choice :: _ =>
        let content := choice.Message.Content
        let s5 := s4.record (.logPrintf "Got reply: %s\n" [content])
        let u := Unmarshal (ChartSelectResponse.decode sv.decodeDataEntry sv.zeroDataEntry)
          ChartSelectResponse.zero content
        match u.2 with
        | some err =>
          (.returned (none, some (.errorf "unmarshalling response %q: %v" [content] err)), s5)
        | none =>
          let s6 := s5.record (.fmtPrintfChart "%+v\n" u.1)
          (.returned (some u.1, none), s6)

/-- The method `HasGraphStore`. -/
def HasGraphStore (s : State σ D) : Bool × State σ D :=
  (decide (s.bot.graphStore ≠ Ptr.null), s)

/-- The camera of every saved module. -/
def camera : List (String × GoAny) :=
  [("", .mapAny
    [("center", .mapFloat64 [("lng", -79384 / 1000), ("lat", 43645 / 1000)]),
     ("zoom", .float64 (138 / 10)),
     ("pitch", .int 0),
     ("bearing", .int (-30))])]

/-- The module `SaveToGraph` builds. -/
def buildModule (id title featureImage user pubDate : String) : Module :=
  { ID := id
    Name := title
    Headline := Sprintf "<h1>City Budget: %s</h1>" [title]
    Categories := ["Open Data"]
    Creators := [user]
    Camera := camera
    FeatureImage := featureImage
    Description := "User-generated open data visualization"
    PubDate := pubDate
    CodeCredit := "TorontoBot, an open data bot" }

/-- The method `SaveToGraph`. -/
def SaveToGraph (sv : Services σ D) (ctx : Context)
    (id title body js featureImage user : String) (s : State σ D) :
    (String × Option GoError) × State σ D :=
  let pubDate := sv.timeNowFormat s.world "2006-01-02"
  let s1 := s.record (.timeNowFormat "2006-01-02" pubDate)
  let mod := buildModule id title featureImage user pubDate
  let wm := sv.writeModule s1.world s1.bot.graphStore ctx mod
  let s2 := s1.step (.writeModule s1.bot.graphStore ctx mod wm.1) wm.2
  match wm.1 with
  | some err => (("", some (.errorf "writing module: %v" [] err)), s2)
  | none =>
    let vq := sv.vertexQuery mod
    let s3 := s2.record (.vertexQuery mod vq.1 vq.2)
    match vq.2 with
    | some err => (("", some (.errorf "generating vertex query: %v" [] err)), s3)
    | none =>
      let q := vq.1
      let wb := sv.writeBodyText s3.world s3.bot.graphStore ctx q body
      let s4 := s3.step (.writeBodyText s3.bot.graphStore ctx q body wb.1) wb.2
      match wb.1 with
      | some err => (("", some (.errorf "writing body text: %v" [] err)), s4)
      | none =>
        let js1 := js ++ "\n\nmodule.initAdUnits();"
        let wj := sv.writeJS s4.world s4.bot.graphStore ctx q js1
        let s5 := s4.step (.writeJS s4.bot.graphStore ctx q js1 wj.1) wj.2
        match wj.1 with
        | some err => (("", some (.errorf "writing JS: %v" [] err)), s5)
        | none =>
          let sid := sv.slugID mod
          let s6 := s5.record (.slugID mod sid.1 sid.2)
          match sid.2 with
          | some err => (("", some (.errorf "generating slug ID: %v" [] err)), s6)
          | none =>
            let st := sv.slugTitle mod
            let s7 := s6.record (.slugTitle mod st)
            ((Sprintf "/mod/%s/%s" [sid.1, st], none), s7)

end Methods

/-! ## Reading the trace -/

section Trace

variable {σ D : Type}

/-- The `error` a library call returned; nil for a call without an `error`
result. -/
def Event.err : Event D → Option GoError
  | .templateExecute _ _ _ err => err
  | .createChatCompletion _ _ _ _ err => err
  | .readDataTable _ _ _ err => err
  | .writeModule _ _ _ err => err
  | .vertexQuery _ _ err => err
  | .writeBodyText _ _ _ _ err => err
  | .writeJS _ _ _ _ err => err
  | .slugID _ _ err => err
  | _ => none

/-- The name of the library function called. -/
def Event.name : Event D → String
  | .timeNowFormat _ _ => "time.Now"
  | .templateExecute _ _ _ _ => "Execute"
  | .logPrintf _ _ => "log.Printf"
  | .fmtPrintln _ => "fmt.Println"
  | .fmtPrintfChart _ _ => "fmt.Printf"
  | .createChatCompletion _ _ _ _ _ => "CreateChatCompletion"
  | .readDataTable _ _ _ _ => "ReadDataTable"
  | .writeModule _ _ _ _ => "WriteModule"
  | .vertexQuery _ _ _ => "VertexQuery"
  | .writeBodyText _ _ _ _ _ => "WriteBodyText"
  | .writeJS _ _ _ _ _ => "WriteJS"
  | .slugID _ _ _ => "SlugID"
  | .slugTitle _ _ => "SlugTitle"

/-- Whether the call is a chat-completion request. -/
def Event.isChat : Event D → Bool
  | .createChatCompletion _ _ _ _ _ => true
  | _ => false

/-- Whether the call is a template execution. -/
def Event.isExecute : Event D → Bool
  | .templateExecute _ _ _ _ => true
  | _ => false

/-- Whether the call is an operation on the graph store. -/
def Event.isStoreOp : Event D → Bool
  | .writeModule _ _ _ _ => true
  | .writeBodyText _ _ _ _ _ => true
  | .writeJS _ _ _ _ _ => true
  | _ => false

/-- How many calls of the library function called `name` the events hold. -/
def callCount (name : String) (evs : List (Event D)) : Nat :=
  (evs.filter (fun e => e.name = name)).length

/-- The world a store operation leaves; every other call in the traces of
`SaveToGraph` leaves the world alone. -/
def replayStep (sv : Services σ D) (w : σ) : Event D → σ
  | .writeModule store ctx mod _ => (sv.writeModule w store ctx mod).2
  | .writeBodyText store ctx q body _ => (sv.writeBodyText w store ctx q body).2
  | .writeJS store ctx q js _ => (sv.writeJS w store ctx q js).2
  | _ => w

/-- The world left by a sequence of store operations, issued in order. -/
def replay (sv : Services σ D) (w : σ) (evs : List (Event D)) : σ :=
  evs.foldl (replayStep sv) w

/-- The calls that returned a nil error. -/
def succeeded (evs : List (Event D)) : List (Event D) :=
  evs.filter (fun e => e.err.isNone)

end Trace

/-! ## A small world for examples -/

/-- The data entry of the example world: a name and the literal of a
number. -/
structure DemoEntry where
  Name : String
  Value : String
deriving DecidableEq, Repr

/-- One object member stored into a `DemoEntry`. -/
def DemoEntry.storeMember (acc : DemoEntry × Option GoError) (m : String × JValue) :
    DemoEntry × Option GoError :=
  if fieldMatches "Name" m.1 then
    let r := storeString "DataEntry.Name" m.2 acc.1.Name acc.2
    ({ acc.1 with Name := r.1 }, r.2)
  else if fieldMatches "Value" m.1 then
    match m.2 with
    | .number lit => ({ acc.1 with Value := lit }, acc.2)
    | .null => acc
    | v => (acc.1, saveError acc.2 (.jsonUnmarshalType v.kind "DataEntry.Value"))
  else acc

/-- Decoding of a JSON value into the entry `old`. -/
def DemoEntry.decode (old : DemoEntry) : JValue → DemoEntry × Option GoError
  | .object members => members.foldl DemoEntry.storeMember (old, none)
  | .null => (old, none)
  | v => (old, some (.jsonUnmarshalType v.kind "DataEntry"))

/-- A store that keeps the list of what was written to it.  The library call
called `failing` returns an error and writes nothing; every other call
succeeds.  The API answers every request with `reply`. -/
def demo (reply : ChatCompletionResponse) (failing : String) :
    Services (List String) DemoEntry where
  timeNowFormat := fun _ layout => layout
  templateExecute := fun _ _ data =>
    if failing = "Execute" then ("", some (.lib "template")) else
      (String.join (data.map (fun p => p.2)), none)
  createChatCompletion := fun w _ _ _ =>
    if failing = "CreateChatCompletion" then ((⟨[]⟩, some (.lib "api")), w) else ((reply, none), w)
  readDataTable := fun w _ _ => (("table", none), w)
  writeModule := fun w _ _ mod =>
    if failing = "WriteModule" then (some (.lib "store"), w) else (none, w ++ ["module " ++ mod.ID])
  vertexQuery := fun mod =>
    if failing = "VertexQuery" then (⟨""⟩, some (.lib "query")) else (⟨"V " ++ mod.ID⟩, none)
  writeBodyText := fun w _ _ _ body =>
    if failing = "WriteBodyText" then (some (.lib "store"), w) else (none, w ++ ["body " ++ body])
  writeJS := fun w _ _ _ js =>
    if failing = "WriteJS" then (some (.lib "store"), w) else (none, w ++ ["js " ++ js])
  slugID := fun mod =>
    if failing = "SlugID" then ("", some (.lib "slug")) else (mod.ID, none)
  slugTitle := fun mod => mod.Name
  zeroDataEntry := ⟨"", ""⟩
  decodeDataEntry := DemoEntry.decode

/-- The example store inside a transaction: it refuses the body text, and the
refused write rolls back what was written before it. -/
def rollbackDemo : Services (List String) DemoEntry :=
  { demo ⟨[]⟩ "" with writeBodyText := fun _ _ _ _ _ => (some (.lib "store"), []) }

/-- A reply with one choice. -/
def replyWith (content : String) : ChatCompletionResponse :=
  ⟨[⟨⟨"assistant", content⟩⟩]⟩

/-- A reply that encodes `sampleSQL` with white space and the fields in
another order. -/
def sampleSQLText : String :=
  " \x7b \"Applicability\": \"ok\", \"Schema\": \"budget\",\n \"SQL\": \"SELECT 1\", \"MissingData\": \"\" \x7d "

/-- A SQL response. -/
def sampleSQL : SQLResponse := ⟨"budget", "ok", "SELECT 1", ""⟩

/-- A SQL response with a quotation mark and a line break in its SQL. -/
def quotedSQL : SQLResponse := ⟨"budget", "ok", "SELECT \"a\"\nFROM t", ""⟩

/-- The compact text of `quotedSQL`. -/
def quotedSQLText : String :=
  "\x7b\"Schema\":\"budget\",\"Applicability\":\"ok\",\"SQL\":\"SELECT \\\"a\\\"\\u000aFROM t\",\"MissingData\":\"\"\x7d"

/-- A chart response with two data entries, the second a nil pointer. -/
def sampleChart : ChartSelectResponse DemoEntry :=
  ⟨"bar", "Roads", some [some ⟨"a", "1"⟩, none], true⟩

/-- The JSON value of the data entries of `sampleChart`. -/
def sampleChartData : JValue :=
  .array [.object [("Name", .string "a"), ("Value", .number "1")], .null]

/-- The compact text of `sampleChart`. -/
def sampleChartText : String :=
  "\x7b\"Chart\":\"bar\",\"Title\":\"Roads\",\"Data\":[\x7b\"Name\":\"a\",\"Value\":1\x7d,null],\"ValueIsCurrency\":true\x7d"

/-- A reply that encodes `sampleChart` with the first two fields in the other
order. -/
def swappedChartText : String :=
  "\x7b\"Title\":\"Roads\",\"Chart\":\"bar\",\"Data\":[\x7b\"Name\":\"a\",\"Value\":1\x7d,null],\"ValueIsCurrency\":true\x7d"

/-- A reply without choices. -/
def emptyReply : ChatCompletionResponse := ⟨[]⟩

/-- A bot with every handle set. -/
def demoBot : TorontoBot :=
  { Hostname := "localhost"
    sqlGenPrompt := ⟨1⟩
    chartSelectPrompt := ⟨2⟩
    graphStore := ⟨3⟩
    ai := ⟨4⟩
    db := ⟨5⟩ }

/-- The state before the first call: an empty store and an empty trace. -/
def demoState : State (List String) DemoEntry := ⟨demoBot, [], []⟩

/-! ## Lemmas -/

set_option maxRecDepth 100000

section Lemmas

variable {σ D : Type}

/-- The reader on sample texts: a nested value with escapes is read, and an
empty text, a trailing comma, a leading zero, an open string, text after the
value and a control character inside a string are rejected. -/
theorem parseJSON_samples :
    parseJSON " [1, -2.5e3, true, null, \"a\\u00e9\\n\", \x7b\"k\": []\x7d] " =
      some (.array [.number "1", .number "-2.5e3", .bool true, .null, .string "aé\n",
        .object [("k", .array [])]]) ∧
    parseJSON "" = none ∧ parseJSON "[1,]" = none ∧ parseJSON "01" = none ∧
    parseJSON "\"abc" = none ∧ parseJSON "\x7b\x7d x" = none ∧ parseJSON "\"a\nb\"" = none :=
  ⟨rfl, rfl, rfl, rfl, rfl, rfl, rfl⟩

/-- The decoder on sample texts: null decodes into the zero record, an array
is a type error, and text that is not JSON is a syntax error. -/
theorem Unmarshal_samples :
    Unmarshal SQLResponse.decode SQLResponse.zero "null" = (SQLResponse.zero, none) ∧
    Unmarshal SQLResponse.decode SQLResponse.zero "[]" =
      (SQLResponse.zero, some (.jsonUnmarshalType "array" "SQLResponse")) ∧
    Unmarshal SQLResponse.decode SQLResponse.zero "SELECT 1" =
      (SQLResponse.zero, some .jsonSyntax) :=
  ⟨rfl, rfl, rfl⟩

/-- The calls made up to a state whose trace extends the old one. -/
theorem emitted_append (s : State σ D) (b : TorontoBot) (w : σ) (l : List (Event D)) :
    emitted s ⟨b, w, s.trace ++ l⟩ = l := by
  simp [emitted]

/-- The calls `SQLAnalysis` makes in the example world when the API answers
with the content `c`. -/
theorem demo_SQLAnalysis_trace (c : String) :
    emitted demoState (SQLAnalysis (demo (replyWith c) "") ⟨0⟩ "roads" demoState).2 =
      [.timeNowFormat "January 2, 2006" "January 2, 2006",
        .templateExecute ⟨1⟩ [("Date", "January 2, 2006"), ("Command", "roads")]
          "January 2, 2006roads" none,
        .logPrintf "sending request to openai: %q\n" ["January 2, 2006roads"],
        .createChatCompletion ⟨4⟩ ⟨0⟩ (chatRequest "January 2, 2006roads") (replyWith c) none,
        .logPrintf "Got reply: %s\n" [c]] := by
  simp only [SQLAnalysis, State.record, State.step, List.append_assoc]
  have h : (demo (replyWith c) "").templateExecute demoState.world demoState.bot.sqlGenPrompt
      [("Date", (demo (replyWith c) "").timeNowFormat demoState.world "January 2, 2006"),
        ("Command", "roads")] = ("January 2, 2006roads", none) := rfl
  rw [h]
  simp only []
  have h2 : (demo (replyWith c) "").createChatCompletion demoState.world demoState.bot.ai ⟨0⟩
      (chatRequest "January 2, 2006roads") = ((replyWith c, none), []) := rfl
  rw [h2]
  simp only [replyWith]
  split <;> rfl

/-- The request `SelectChart` makes in the example world when the API answers
with the content `c`. -/
theorem demo_SelectChart_request (c : String) :
    Event.createChatCompletion ⟨4⟩ ⟨0⟩ (chatRequest "roadsa,b") (replyWith c) none ∈
      emitted demoState (SelectChart (demo (replyWith c) "") ⟨0⟩ "roads" "a,b" demoState).2 := by
  simp only [SelectChart, State.record, State.step, List.append_assoc]
  have h : (demo (replyWith c) "").templateExecute demoState.world
      demoState.bot.chartSelectPrompt [("Title", "roads"), ("Data", "a,b")] =
      ("roadsa,b", none) := rfl
  rw [h]
  simp only []
  have h2 : (demo (replyWith c) "").createChatCompletion demoState.world demoState.bot.ai ⟨0⟩
      (chatRequest "roadsa,b") = ((replyWith c, none), []) := rfl
  rw [h2]
  simp only [replyWith]
  split <;> simp [emitted, demoState, demoBot]

/-- The headline format with its argument substituted. -/
theorem Sprintf_headline (title : String) :
    Sprintf "<h1>City Budget: %s</h1>" [title] = "<h1>City Budget: " ++ title ++ "</h1>" := by
  apply String.ext
  simp [Sprintf, sprintfChars]

/-- The path format with its arguments substituted. -/
theorem Sprintf_path (a b : String) :
    Sprintf "/mod/%s/%s" [a, b] = "/mod/" ++ a ++ "/" ++ b := by
  apply String.ext
  simp [Sprintf, sprintfChars]

/-- The calls `SaveToGraph` makes in the example world when the store refuses
the body text. -/
theorem demo_SaveToGraph_refused_body :
    emitted demoState (SaveToGraph (demo emptyReply "WriteBodyText") ⟨0⟩ "m1" "Roads"
        "<p>roads</p>" "draw();" "roads.png" "ann" demoState).2 =
      [.timeNowFormat "2006-01-02" "2006-01-02",
        .writeModule ⟨3⟩ ⟨0⟩ (buildModule "m1" "Roads" "roads.png" "ann" "2006-01-02") none,
        .vertexQuery (buildModule "m1" "Roads" "roads.png" "ann" "2006-01-02") ⟨"V m1"⟩ none,
        .writeBodyText ⟨3⟩ ⟨0⟩ ⟨"V m1"⟩ "<p>roads</p>" (some (.lib "store"))] :=
  rfl

/-- The calls `SaveToGraph` makes in the example world when every call
succeeds. -/
theorem demo_SaveToGraph_success :
    emitted demoState (SaveToGraph (demo emptyReply "") ⟨0⟩ "m1" "Roads"
        "<p>roads</p>" "draw();" "roads.png" "ann" demoState).2 =
      [.timeNowFormat "2006-01-02" "2006-01-02",
        .writeModule ⟨3⟩ ⟨0⟩ (buildModule "m1" "Roads" "roads.png" "ann" "2006-01-02") none,
        .vertexQuery (buildModule "m1" "Roads" "roads.png" "ann" "2006-01-02") ⟨"V m1"⟩ none,
        .writeBodyText ⟨3⟩ ⟨0⟩ ⟨"V m1"⟩ "<p>roads</p>" none,
        .writeJS ⟨3⟩ ⟨0⟩ ⟨"V m1"⟩ "draw();\n\nmodule.initAdUnits();" none,
        .slugID (buildModule "m1" "Roads" "roads.png" "ann" "2006-01-02") "m1" none,
        .slugTitle (buildModule "m1" "Roads" "roads.png" "ann" "2006-01-02") "Roads"] :=
  rfl

/-- Storing a string or null never raises a type error. -/
theorem storeString_ok (field : String) (v : JValue) (old : String) (saved : Option GoError)
    (hv : v.isStringOrNull = true) : (storeString field v old saved).2 = saved := by
  cases v <;> simp [storeString, JValue.isStringOrNull] at hv ⊢

/-- Members whose values fit their fields are stored without error. -/
theorem storeMember_ok (acc : SQLResponse × Option GoError) (m : String × JValue)
    (hm : (∃ f ∈ SQLResponse.fieldNames, fieldMatches f m.1 = true) → m.2.isStringOrNull = true) :
    (SQLResponse.storeMember acc m).2 = acc.2 := by
  unfold SQLResponse.storeMember
  split
  · next h => exact storeString_ok _ _ _ _ (hm ⟨"Schema", by simp [SQLResponse.fieldNames], h⟩)
  · split
    · next h =>
      exact storeString_ok _ _ _ _ (hm ⟨"Applicability", by simp [SQLResponse.fieldNames], h⟩)
    · split
      · next h => exact storeString_ok _ _ _ _ (hm ⟨"SQL", by simp [SQLResponse.fieldNames], h⟩)
      · split
        · next h =>
          exact storeString_ok _ _ _ _ (hm ⟨"MissingData", by simp [SQLResponse.fieldNames], h⟩)
        · rfl

/-- A member whose key selects no field changes no field; a member changes
only the field its key selects. -/
theorem storeMember_fields (acc : SQLResponse × Option GoError) (m : String × JValue) :
    (fieldMatches "Schema" m.1 = false →
      (SQLResponse.storeMember acc m).1.Schema = acc.1.Schema) ∧
    (fieldMatches "Applicability" m.1 = false →
      (SQLResponse.storeMember acc m).1.Applicability = acc.1.Applicability) ∧
    (fieldMatches "SQL" m.1 = false → (SQLResponse.storeMember acc m).1.SQL = acc.1.SQL) ∧
    (fieldMatches "MissingData" m.1 = false →
      (SQLResponse.storeMember acc m).1.MissingData = acc.1.MissingData) := by
  unfold SQLResponse.storeMember
  refine ⟨fun h => ?_, fun h => ?_, fun h => ?_, fun h => ?_⟩ <;>
  · repeat' split
    all_goals first | rfl | simp_all

/-- The result of storing a list of members whose values fit their fields. -/
theorem foldl_storeMember (members : List (String × JValue))
    (acc : SQLResponse × Option GoError)
    (hm : ∀ m ∈ members,
      (∃ f ∈ SQLResponse.fieldNames, fieldMatches f m.1 = true) → m.2.isStringOrNull = true) :
    (members.foldl SQLResponse.storeMember acc).2 = acc.2 ∧
    ((∀ m ∈ members, fieldMatches "Schema" m.1 = false) →
      (members.foldl SQLResponse.storeMember acc).1.Schema = acc.1.Schema) ∧
    ((∀ m ∈ members, fieldMatches "Applicability" m.1 = false) →
      (members.foldl SQLResponse.storeMember acc).1.Applicability = acc.1.Applicability) ∧
    ((∀ m ∈ members, fieldMatches "SQL" m.1 = false) →
      (members.foldl SQLResponse.storeMember acc).1.SQL = acc.1.SQL) ∧
    ((∀ m ∈ members, fieldMatches "MissingData" m.1 = false) →
      (members.foldl SQLResponse.storeMember acc).1.MissingData = acc.1.MissingData) := by
  induction members generalizing acc with
  | nil => simp
  | cons m rest ih =>
    have hrest := ih (SQLResponse.storeMember acc m)
      (fun x hx => hm x (List.mem_cons_of_mem _ hx))
    have hhead := storeMember_ok acc m (hm m (List.mem_cons_self _ _))
    have hf := storeMember_fields acc m
    simp only [List.foldl_cons]
    refine ⟨hrest.1.trans hhead, fun h => ?_, fun h => ?_, fun h => ?_, fun h => ?_⟩
    · exact (hrest.2.1 (fun x hx => h x (List.mem_cons_of_mem _ hx))).trans
        (hf.1 (h m (List.mem_cons_self _ _)))
    · exact (hrest.2.2.1 (fun x hx => h x (List.mem_cons_of_mem _ hx))).trans
        (hf.2.1 (h m (List.mem_cons_self _ _)))
    · exact (hrest.2.2.2.1 (fun x hx => h x (List.mem_cons_of_mem _ hx))).trans
        (hf.2.2.1 (h m (List.mem_cons_self _ _)))
    · exact (hrest.2.2.2.2 (fun x hx => h x (List.mem_cons_of_mem _ hx))).trans
        (hf.2.2.2 (h m (List.mem_cons_self _ _)))

/-- What `SQLAnalysis` returns once the API has answered with a first choice:
the outcome of decoding its content. -/
theorem SQLAnalysis_of_reply (sv : Services σ D) (ctx : Context) (question : String)
    (s : State σ D) (client : Ptr) (c : Context) (req : ChatCompletionRequest)
    (choice : ChatCompletionChoice) (rest : List ChatCompletionChoice)
    (h : Event.createChatCompletion client c req ⟨choice :: rest⟩ none ∈
      emitted s (SQLAnalysis sv ctx question s).2) :
    (SQLAnalysis sv ctx question s).1 =
      match (Unmarshal SQLResponse.decode SQLResponse.zero choice.Message.Content).2 with
      | some err => .returned (none,
          some (.errorf "unmarshalling response %q: %v" [choice.Message.Content] err))
      | none => .returned
          (some (Unmarshal SQLResponse.decode SQLResponse.zero choice.Message.Content).1, none) := by
  revert h
  simp only [SQLAnalysis, State.record, State.step, List.append_assoc]
  rcases sv.templateExecute s.world s.bot.sqlGenPrompt
      [("Date", sv.timeNowFormat s.world "January 2, 2006"), ("Command", question)]
    with ⟨text, _ | e1⟩
  · simp only []
    rcases sv.createChatCompletion s.world s.bot.ai ctx (chatRequest text)
      with ⟨⟨⟨choices⟩, _ | e2⟩, w⟩
    · rcases choices with _ | ⟨choice0, rest0⟩
      · simp [emitted_append]
      · simp only []
        intro h
        have hc : choice0 = choice := by
          split at h <;>
          · simp only [emitted_append] at h
            simp at h
            exact h.2.2.2.1.symm
        subst hc
        split <;> simp_all
    · simp [emitted_append]
  · simp [emitted_append]

/-- The members of a record, stored in the order of its fields, give the
record back. -/
theorem sql_decode_members (r : SQLResponse) :
    r.members.foldl SQLResponse.storeMember (SQLResponse.zero, none) = (r, none) :=
  rfl

/-- Storing two members of a record in either order gives the same result. -/
theorem sql_storeMember_comm (r : SQLResponse) :
    ∀ x ∈ r.members, ∀ y ∈ r.members, ∀ z,
      SQLResponse.storeMember (SQLResponse.storeMember z x) y =
        SQLResponse.storeMember (SQLResponse.storeMember z y) x := by
  intro x hx y hy z
  simp only [SQLResponse.members, List.mem_cons, List.mem_singleton, List.not_mem_nil,
    or_false] at hx hy
  rcases hx with rfl | rfl | rfl | rfl <;> rcases hy with rfl | rfl | rfl | rfl <;> rfl

/-- A JSON value that encodes a record decodes into it. -/
theorem sql_decode_encoded (r : SQLResponse) (v : JValue)
    (h : SQLResponse.EncodedBy r v) : SQLResponse.decode v = (r, none) := by
  obtain ⟨ms, rfl, hp⟩ := h
  show ms.foldl SQLResponse.storeMember (SQLResponse.zero, none) = (r, none)
  rw [← hp.symm.foldl_eq' (sql_storeMember_comm r) _]
  exact sql_decode_members r

/-- The values that encode a list of entry pointers, stored into an empty
backing array, give the pointers back. -/
theorem storeElems_encoded {D : Type} (entry : D → JValue → D × Option GoError) (zero : D)
    (l : List (Option D)) (items : List JValue) (saved : Option GoError)
    (h : List.Forall₂ (EntryEncodedBy entry zero) l items) :
    storeElems entry zero items [] saved = (l, saved) := by
  induction h with
  | nil => rfl
  | @cons e v l items hev _ ih =>
    have hhead : storeEntry entry zero none v saved = (e, saved) := by
      cases e with
      | none =>
        simp only [EntryEncodedBy] at hev
        subst hev
        rfl
      | some d =>
        obtain ⟨hne, hd⟩ := hev
        cases v <;> first | exact absurd rfl hne | simp [storeEntry, hd]
    show ((storeEntry entry zero none v saved).1 ::
        (storeElems entry zero items [] (storeEntry entry zero none v saved).2).1,
      (storeElems entry zero items [] (storeEntry entry zero none v saved).2).2) = (e :: l, saved)
    rw [hhead, ih]

/-- The value that encodes a slice, stored into the nil slice, gives the slice
back and leaves no pointer behind. -/
theorem storeData_encoded {D : Type} (entry : D → JValue → D × Option GoError) (zero : D)
    (data : Option (List (Option D))) (v : JValue) (saved : Option GoError)
    (h : DataEncodedBy entry zero data v) :
    storeData entry zero v none [] saved = (data, [], saved) := by
  cases data with
  | none =>
    simp only [DataEncodedBy] at h
    subst h
    rfl
  | some l =>
    obtain ⟨items, rfl, hf⟩ := h
    cases items with
    | nil =>
      cases hf
      rfl
    | cons v vs =>
      have hs := storeElems_encoded entry zero l (v :: vs) saved hf
      simp [storeData, hs]

/-- The members of a record, stored in the order of its fields, give the
record back. -/
theorem chart_decode_members {D : Type}
    (entry : D → JValue → D × Option GoError) (zero : D) (r : ChartSelectResponse D)
    (dataJ : JValue) (h : DataEncodedBy entry zero r.Data dataJ) :
    (r.members dataJ).foldl (ChartSelectResponse.storeMember entry zero)
      ⟨ChartSelectResponse.zero, [], none⟩ = ⟨r, [], none⟩ := by
  have hd := storeData_encoded entry zero r.Data dataJ none h
  have h3 : ChartSelectResponse.storeMember entry zero
      ⟨⟨r.Chart, r.Title, none, false⟩, [], none⟩ ("Data", dataJ) =
      ⟨⟨r.Chart, r.Title, r.Data, false⟩, [], none⟩ := by
    show (⟨{ (⟨r.Chart, r.Title, none, false⟩ : ChartSelectResponse D) with
        Data := (storeData entry zero dataJ none [] none).1 },
      (storeData entry zero dataJ none [] none).2.1,
      (storeData entry zero dataJ none [] none).2.2⟩ : ChartDecoding D) = _
    rw [hd]
  show ChartSelectResponse.storeMember entry zero
    (ChartSelectResponse.storeMember entry zero
      ⟨⟨r.Chart, r.Title, none, false⟩, [], none⟩ ("Data", dataJ))
    ("ValueIsCurrency", .bool r.ValueIsCurrency) = _
  rw [h3]
  rfl

/-- Storing two members of a record in either order gives the same result. -/
theorem chart_storeMember_comm {D : Type}
    (entry : D → JValue → D × Option GoError) (zero : D) (r : ChartSelectResponse D)
    (dataJ : JValue) :
    ∀ x ∈ r.members dataJ, ∀ y ∈ r.members dataJ, ∀ z,
      ChartSelectResponse.storeMember entry zero
          (ChartSelectResponse.storeMember entry zero z x) y =
        ChartSelectResponse.storeMember entry zero
          (ChartSelectResponse.storeMember entry zero z y) x := by
  intro x hx y hy z
  simp only [ChartSelectResponse.members, List.mem_cons, List.mem_singleton, List.not_mem_nil,
    or_false] at hx hy
  rcases hx with rfl | rfl | rfl | rfl <;> rcases hy with rfl | rfl | rfl | rfl <;> rfl

/-- A JSON value that encodes a record decodes into it. -/
theorem chart_decode_encoded {D : Type}
    (entry : D → JValue → D × Option GoError) (zero : D) (r : ChartSelectResponse D)
    (v : JValue) (h : ChartSelectResponse.EncodedBy entry zero r v) :
    ChartSelectResponse.decode entry zero v = (r, none) := by
  obtain ⟨ms, dataJ, rfl, hd, hp⟩ := h
  have hfold : ms.foldl (ChartSelectResponse.storeMember entry zero)
      ⟨ChartSelectResponse.zero, [], none⟩ = ⟨r, [], none⟩ := by
    rw [← hp.symm.foldl_eq' (chart_storeMember_comm entry zero r dataJ) _]
    exact chart_decode_members entry zero r dataJ hd
  simp [ChartSelectResponse.decode, hfold]

/-- What `SelectChart` returns once the API has answered with a first choice:
the outcome of decoding its content. -/
theorem SelectChart_of_reply (sv : Services σ D) (ctx : Context) (question dataTable : String)
    (s : State σ D) (client : Ptr) (c : Context) (req : ChatCompletionRequest)
    (choice : ChatCompletionChoice) (rest : List ChatCompletionChoice)
    (h : Event.createChatCompletion client c req ⟨choice :: rest⟩ none ∈
      emitted s (SelectChart sv ctx question dataTable s).2) :
    (SelectChart sv ctx question dataTable s).1 =
      match (Unmarshal (ChartSelectResponse.decode sv.decodeDataEntry sv.zeroDataEntry)
        ChartSelectResponse.zero choice.Message.Content).2 with
      | some err => .returned (none,
          some (.errorf "unmarshalling response %q: %v" [choice.Message.Content] err))
      | none => .returned
          (some (Unmarshal (ChartSelectResponse.decode sv.decodeDataEntry sv.zeroDataEntry)
            ChartSelectResponse.zero choice.Message.Content).1, none) := by
  revert h
  simp only [SelectChart, State.record, State.step, List.append_assoc]
  rcases sv.templateExecute s.world s.bot.chartSelectPrompt
      [("Title", question), ("Data", dataTable)]
    with ⟨text, _ | e1⟩
  · simp only []
    rcases sv.createChatCompletion s.world s.bot.ai ctx (chatRequest text)
      with ⟨⟨⟨choices⟩, _ | e2⟩, w⟩
    · rcases choices with _ | ⟨choice0, rest0⟩
      · simp [emitted_append]
      · simp only []
        intro h
        have hc : choice0 = choice := by
          split at h <;>
          · simp only [emitted_append] at h
            simp at h
            exact h.2.2.2.1.symm
        subst hc
        split <;> simp_all
    · simp [emitted_append]
  · simp [emitted_append]

/-- A text that is not valid JSON is a syntax error. -/
theorem Unmarshal_invalid {α : Type} (decode : JValue → α × Option GoError) (zero : α)
    (data : String) (h : Valid data = false) :
    Unmarshal decode zero data = (zero, some .jsonSyntax) := by
  unfold Valid at h
  unfold Unmarshal
  cases hp : parseJSON data with
  | none => rfl
  | some v => simp [hp] at h

/-- The scanner reads a hexadecimal digit back as its value. -/
theorem hexVal_hexDigit (k : Nat) (h : k < 16) : hexVal (hexDigit k) = some k := by
  interval_cases k <;> rfl

/-- The scanner reads the text of one character of a string as its unit. -/
theorem lex_escapeChar (c : Char) (acc : List Token) (us : List StrUnit) :
    (escapeChar c).foldl lexStep ⟨acc, .inString us, false⟩ =
      ⟨acc, .inString (charUnit c :: us), false⟩ := by
  unfold escapeChar charUnit
  by_cases h1 : c = '"'
  · subst h1
    rfl
  · by_cases h2 : c = '\\'
    · subst h2
      rfl
    · by_cases h3 : c.toNat < 0x20
      · have ha : hexVal (hexDigit (c.toNat / 16)) = some (c.toNat / 16) :=
          hexVal_hexDigit _ (by omega)
        have hb : hexVal (hexDigit (c.toNat % 16)) = some (c.toNat % 16) :=
          hexVal_hexDigit _ (by omega)
        have h0 : hexVal '0' = some 0 := rfl
        simp only [h1, h2, h3, if_true, if_false, List.foldl_cons, List.foldl_nil]
        have e1 : lexStep ⟨acc, .inString us, false⟩ '\\' = ⟨acc, .inEsc us, false⟩ := rfl
        have e2 : lexStep ⟨acc, .inEsc us, false⟩ 'u' = ⟨acc, .inHex us 0 0, false⟩ := rfl
        have e3 : lexStep ⟨acc, .inHex us 0 0, false⟩ '0' = ⟨acc, .inHex us 0 1, false⟩ := rfl
        have e4 : lexStep ⟨acc, .inHex us 0 1, false⟩ '0' = ⟨acc, .inHex us 0 2, false⟩ := rfl
        have e5 : lexStep ⟨acc, .inHex us 0 2, false⟩ (hexDigit (c.toNat / 16)) =
            ⟨acc, .inHex us (c.toNat / 16) 3, false⟩ := by
          simp [lexStep, ha]
        have e6 : lexStep ⟨acc, .inHex us (c.toNat / 16) 3, false⟩ (hexDigit (c.toNat % 16)) =
            ⟨acc, .inString (.u16 c.toNat :: us), false⟩ := by
          simp only [lexStep, hb]
          have : c.toNat / 16 * 16 + c.toNat % 16 = c.toNat := by omega
          simp [this]
        rw [e1, e2, e3, e4, e5, e6]
      · simp only [h1, h2, h3, if_false, List.foldl_cons, List.foldl_nil]
        simp [lexStep, h1, h2, h3]

/-- The scanner reads the escaped characters of a string as their units. -/
theorem lex_escapeChars (cs rest : List Char) (acc : List Token) (us : List StrUnit) :
    (escapeChars cs ++ rest).foldl lexStep ⟨acc, .inString us, false⟩ =
      rest.foldl lexStep ⟨acc, .inString ((cs.map charUnit).reverse ++ us), false⟩ := by
  induction cs generalizing us with
  | nil => rfl
  | cons c cs ih =>
    simp only [escapeChars, List.append_assoc, List.foldl_append, lex_escapeChar]
    rw [← List.foldl_append, ih]
    simp

/-- The units of the characters of a string join into the characters. -/
theorem joinUnits_charUnit (cs : List Char) : joinUnits (cs.map charUnit) = cs := by
  unfold joinUnits
  induction cs with
  | nil => rfl
  | cons c cs ih =>
    by_cases h : c.toNat < 0x20
    · have h1 : ¬ (0xD800 ≤ c.toNat ∧ c.toNat < 0xDC00) := by omega
      have h2 : ¬ (0xDC00 ≤ c.toNat ∧ c.toNat < 0xE000) := by omega
      simp only [List.map_cons, charUnit, h, if_true, joinUnitsFrom, h1, h2, if_false]
      rw [ih]
      simp [Char.ofNat_toNat]
    · simp only [List.map_cons, charUnit, h, if_false, joinUnitsFrom]
      rw [ih]

/-- The scanner reads the string literal of a string as one string token. -/
theorem lex_quote (s : String) (rest : List Char) (acc : List Token) :
    (quoteChars s ++ rest).foldl lexStep ⟨acc, .between, false⟩ =
      rest.foldl lexStep ⟨.str s :: acc, .between, false⟩ := by
  have e1 : lexStep ⟨acc, .between, false⟩ '"' = ⟨acc, .inString [], false⟩ := rfl
  have e2 : ∀ us, lexStep ⟨acc, .inString us, false⟩ '"' =
      ⟨.str ⟨joinUnits us.reverse⟩ :: acc, .between, false⟩ := fun _ => rfl
  simp only [quoteChars, List.cons_append, List.foldl_cons, e1, List.append_assoc,
    lex_escapeChars, List.nil_append, e2, List.append_nil, List.reverse_reverse,
    joinUnits_charUnit]

/-- A character that ends a run is one of eleven characters. -/
theorem isDelim_cases (c : Char) (h : isDelim c = true) :
    c = ' ' ∨ c = '\t' ∨ c = '\r' ∨ c = '\n' ∨ c = '"' ∨ c = '\x7b' ∨ c = '\x7d' ∨
      c = '[' ∨ c = ']' ∨ c = ':' ∨ c = ',' := by
  unfold isDelim isSpace punct at h
  by_cases h1 : c = ' '
  · exact Or.inl h1
  by_cases h2 : c = '\t'
  · exact Or.inr (Or.inl h2)
  by_cases h3 : c = '\r'
  · exact Or.inr (Or.inr (Or.inl h3))
  by_cases h4 : c = '\n'
  · exact Or.inr (Or.inr (Or.inr (Or.inl h4)))
  by_cases h5 : c = '"'
  · exact Or.inr (Or.inr (Or.inr (Or.inr (Or.inl h5))))
  by_cases h6 : c = '\x7b'
  · exact Or.inr (Or.inr (Or.inr (Or.inr (Or.inr (Or.inl h6)))))
  by_cases h7 : c = '\x7d'
  · exact Or.inr (Or.inr (Or.inr (Or.inr (Or.inr (Or.inr (Or.inl h7))))))
  by_cases h8 : c = '['
  · exact Or.inr (Or.inr (Or.inr (Or.inr (Or.inr (Or.inr (Or.inr (Or.inl h8)))))))
  by_cases h9 : c = ']'
  · exact Or.inr (Or.inr (Or.inr (Or.inr (Or.inr (Or.inr (Or.inr (Or.inr (Or.inl h9))))))))
  by_cases h10 : c = ':'
  · exact Or.inr (Or.inr (Or.inr (Or.inr (Or.inr (Or.inr (Or.inr (Or.inr (Or.inr
      (Or.inl h10)))))))))
  by_cases h11 : c = ','
  · exact Or.inr (Or.inr (Or.inr (Or.inr (Or.inr (Or.inr (Or.inr (Or.inr (Or.inr
      (Or.inr h11)))))))))
  simp [h1, h2, h3, h4, h5, h6, h7, h8, h9, h10, h11] at h

/-- No number goes on with a character that ends a run. -/
theorem numStep_delim (st : NumState) (c : Char) (h : isDelim c = true) :
    numStep st c = .bad := by
  rcases isDelim_cases c h with h | h | h | h | h | h | h | h | h | h | h <;>
    subst h <;> cases st <;> rfl

/-- The number grammar does not leave its failure state. -/
theorem foldl_numStep_bad (cs : List Char) : cs.foldl numStep .bad = .bad := by
  induction cs with
  | nil => rfl
  | cons c cs ih => exact ih

/-- A text with a character that ends a run is not a number. -/
theorem foldl_numStep_delim (cs : List Char) (st : NumState)
    (h : ∃ c ∈ cs, isDelim c = true) : cs.foldl numStep st = .bad := by
  induction cs generalizing st with
  | nil => simp at h
  | cons c cs ih =>
    by_cases hc : isDelim c = true
    · simp only [List.foldl_cons, numStep_delim st c hc, foldl_numStep_bad]
    · obtain ⟨d, hd, hdel⟩ := h
      rcases List.mem_cons.mp hd with rfl | hmem
      · exact absurd hdel hc
      · exact ih _ ⟨d, hmem, hdel⟩

/-- No character of a number ends a run. -/
theorem validNumber_no_delim (cs : List Char) (h : validNumber cs = true) :
    ∀ c ∈ cs, isDelim c = false := by
  intro c hc
  by_contra hd
  have hd1 : isDelim c = true := by simpa using hd
  have hb := foldl_numStep_delim cs .start ⟨c, hc, hd1⟩
  simp [validNumber, hb] at h

/-- A number is classified as a number token. -/
theorem classifyBare_number (cs : List Char) (h : validNumber cs = true) :
    classifyBare cs = some (.num ⟨cs⟩) := by
  have h1 : cs ≠ "true".data := by
    intro e
    rw [e] at h
    exact absurd h (by decide)
  have h2 : cs ≠ "false".data := by
    intro e
    rw [e] at h
    exact absurd h (by decide)
  have h3 : cs ≠ "null".data := by
    intro e
    rw [e] at h
    exact absurd h (by decide)
  simp [classifyBare, h1, h2, h3, h]

/-- The scanner gathers a run of characters that do not end it. -/
theorem lex_bare_run (cs : List Char) (acc : List Token) (b : List Char)
    (h : ∀ c ∈ cs, isDelim c = false) :
    cs.foldl lexStep ⟨acc, .bare b, false⟩ = ⟨acc, .bare (cs.reverse ++ b), false⟩ := by
  induction cs generalizing b with
  | nil => rfl
  | cons c cs ih =>
    have hc : isDelim c = false := h c (List.mem_cons_self _ _)
    have hstep : lexStep ⟨acc, .bare b, false⟩ c = ⟨acc, .bare (c :: b), false⟩ := by
      unfold isDelim at hc
      simp only [Bool.or_eq_false_iff, decide_eq_false_iff_not] at hc
      simp [lexStep, hc.1.1, hc.1.2, hc.2]
    simp only [List.foldl_cons, hstep]
    rw [ih (c :: b) (fun x hx => h x (List.mem_cons_of_mem _ hx))]
    simp

/-- The scanner starts a run at a character that does not end one. -/
theorem lex_bare_start (c : Char) (acc : List Token) (h : isDelim c = false) :
    lexStep ⟨acc, .between, false⟩ c = ⟨acc, .bare [c], false⟩ := by
  unfold isDelim at h
  simp only [Bool.or_eq_false_iff, decide_eq_false_iff_not] at h
  have hp : punct c = none := by
    cases hpc : punct c with
    | none => rfl
    | some t => simp [hpc] at h
  simp [lexStep, LexState.fresh, h.1.1, h.1.2, hp]

/-- At a character that ends a run the scanner closes the run and goes on as
between tokens. -/
theorem lex_bare_flush (d : Char) (acc : List Token) (b : List Char) (t : Token)
    (hd : isDelim d = true) (ht : classifyBare b.reverse = some t) :
    lexStep ⟨acc, .bare b, false⟩ d = lexStep ⟨t :: acc, .between, false⟩ d := by
  unfold isDelim at hd
  have hcond : isSpace d = true ∨ d = '"' ∨ (punct d).isSome = true := by
    simpa [Bool.or_eq_true, or_assoc] using hd
  simp [lexStep, hcond, LexState.flush, ht]

/-- The scanner reads a run of characters, followed by the end of the text or
by a character that ends the run, as its token. -/
theorem lex_bare (cs rest : List Char) (acc : List Token) (t : Token)
    (hne : cs ≠ []) (hcs : ∀ c ∈ cs, isDelim c = false) (ht : classifyBare cs = some t)
    (hrest : boundary rest = true) :
    lexFinish ((cs ++ rest).foldl lexStep ⟨acc, .between, false⟩) =
      lexFinish (rest.foldl lexStep ⟨t :: acc, .between, false⟩) := by
  obtain ⟨c, cs1, rfl⟩ := List.exists_cons_of_ne_nil hne
  have hrun : (c :: cs1).foldl lexStep ⟨acc, .between, false⟩ =
      ⟨acc, .bare ((c :: cs1).reverse), false⟩ := by
    simp only [List.foldl_cons, lex_bare_start c acc (hcs c (List.mem_cons_self _ _))]
    rw [lex_bare_run cs1 acc [c] (fun x hx => hcs x (List.mem_cons_of_mem _ hx))]
    simp
  rw [List.foldl_append, hrun]
  cases rest with
  | nil =>
    simp [lexFinish, LexState.flush, ht]
  | cons d more =>
    simp only [boundary] at hrest
    simp only [List.foldl_cons]
    rw [lex_bare_flush d acc _ t hrest (by simpa using ht)]

/-- The items of an array after the first may follow a value. -/
theorem boundary_itemsChars (vs : List JValue) (rest : List Char) (h : boundary rest = true) :
    boundary (itemsChars vs ++ rest) = true := by
  cases vs with
  | nil => simpa [itemsChars] using h
  | cons v vs => rfl

/-- The members of an object after the first may follow a value. -/
theorem boundary_membersChars (ms : List (String × JValue)) (rest : List Char)
    (h : boundary rest = true) : boundary (membersChars ms ++ rest) = true := by
  cases ms with
  | nil => simpa [membersChars] using h
  | cons m ms =>
    obtain ⟨k, v⟩ := m
    rfl

/-- One step of the scanner does not change what a longer text gives. -/
theorem lexFinish_congr (cs : List Char) (st st1 : LexState) (h : st = st1) :
    lexFinish (cs.foldl lexStep st) = lexFinish (cs.foldl lexStep st1) := by
  rw [h]

mutual
/-- The scanner reads the text of a value, followed by the end of the text or
by a character that ends a run, as the tokens of the value. -/
theorem lex_value : ∀ (v : JValue) (acc : List Token) (rest : List Char),
    v.numbersValid = true → boundary rest = true →
    lexFinish ((v.chars ++ rest).foldl lexStep ⟨acc, .between, false⟩) =
      lexFinish (rest.foldl lexStep ⟨v.tokens.reverse ++ acc, .between, false⟩)
  | .null, acc, rest, _, hr =>
    lex_bare "null".data rest acc .litNull (by decide) (by decide) rfl hr
  | .bool true, acc, rest, _, hr =>
    lex_bare "true".data rest acc .litTrue (by decide) (by decide) rfl hr
  | .bool false, acc, rest, _, hr =>
    lex_bare "false".data rest acc .litFalse (by decide) (by decide) rfl hr
  | .number lit, acc, rest, hv, hr => by
    have hval : validNumber lit.data = true := hv
    have hne : lit.data ≠ [] := by
      intro e
      rw [e] at hval
      exact absurd hval (by decide)
    exact lex_bare lit.data rest acc (.num lit) hne (validNumber_no_delim _ hval)
      (classifyBare_number _ hval) hr
  | .string s, acc, rest, _, _ => by
    show lexFinish ((quoteChars s ++ rest).foldl lexStep ⟨acc, .between, false⟩) = _
    rw [lex_quote]
    rfl
  | .array [], acc, rest, _, _ => rfl
  | .array (v :: vs), acc, rest, hv, hr => by
    have hv1 : v.numbersValid = true ∧ itemsNumbersValid vs = true := by
      simpa [JValue.numbersValid, itemsNumbersValid] using hv
    have h1 := lex_value v (.lbrack :: acc) (itemsChars vs ++ ']' :: rest) hv1.1
      (boundary_itemsChars vs _ rfl)
    have h2 := lex_items vs (v.tokens.reverse ++ .lbrack :: acc) (']' :: rest) hv1.2 rfl
    show lexFinish (('[' :: v.chars ++ itemsChars vs ++ [']'] ++ rest).foldl lexStep
      ⟨acc, .between, false⟩) = _
    have e : '[' :: v.chars ++ itemsChars vs ++ [']'] ++ rest =
        '[' :: (v.chars ++ (itemsChars vs ++ ']' :: rest)) := by simp
    rw [e, List.foldl_cons]
    have s1 : lexStep ⟨acc, .between, false⟩ '[' = ⟨.lbrack :: acc, .between, false⟩ := rfl
    rw [s1, h1, h2, List.foldl_cons]
    have s2 : lexStep ⟨(itemsTokens vs).reverse ++ (v.tokens.reverse ++ .lbrack :: acc),
        .between, false⟩ ']' =
        ⟨.rbrack :: ((itemsTokens vs).reverse ++ (v.tokens.reverse ++ .lbrack :: acc)),
          .between, false⟩ := rfl
    rw [s2]
    apply lexFinish_congr
    simp [JValue.tokens]
  | .object [], acc, rest, _, _ => rfl
  | .object ((k, v) :: ms), acc, rest, hv, hr => by
    have hv1 : v.numbersValid = true ∧ membersNumbersValid ms = true := by
      simpa [JValue.numbersValid, membersNumbersValid] using hv
    have h1 := lex_value v (.colon :: .str k :: .lbrace :: acc)
      (membersChars ms ++ '\x7d' :: rest) hv1.1 (boundary_membersChars ms _ rfl)
    have h2 := lex_members ms (v.tokens.reverse ++ .colon :: .str k :: .lbrace :: acc)
      ('\x7d' :: rest) hv1.2 rfl
    show lexFinish (('\x7b' :: quoteChars k ++ ':' :: v.chars ++ membersChars ms ++ ['\x7d']
      ++ rest).foldl lexStep ⟨acc, .between, false⟩) = _
    have e : '\x7b' :: quoteChars k ++ ':' :: v.chars ++ membersChars ms ++ ['\x7d'] ++ rest =
        '\x7b' :: (quoteChars k ++ ':' :: (v.chars ++ (membersChars ms ++ '\x7d' :: rest))) := by
      simp
    rw [e, List.foldl_cons]
    have s1 : lexStep ⟨acc, .between, false⟩ '\x7b' = ⟨.lbrace :: acc, .between, false⟩ := rfl
    rw [s1, lex_quote, List.foldl_cons]
    have s2 : lexStep ⟨.str k :: .lbrace :: acc, .between, false⟩ ':' =
        ⟨.colon :: .str k :: .lbrace :: acc, .between, false⟩ := rfl
    rw [s2, h1, h2, List.foldl_cons]
    have s3 : lexStep ⟨(membersTokens ms).reverse ++
        (v.tokens.reverse ++ .colon :: .str k :: .lbrace :: acc), .between, false⟩ '\x7d' =
        ⟨.rbrace :: ((membersTokens ms).reverse ++
          (v.tokens.reverse ++ .colon :: .str k :: .lbrace :: acc)), .between, false⟩ := rfl
    rw [s3]
    apply lexFinish_congr
    simp [JValue.tokens]
/-- The scanner reads the text of the items of an array after the first as
their tokens. -/
theorem lex_items : ∀ (vs : List JValue) (acc : List Token) (rest : List Char),
    itemsNumbersValid vs = true → boundary rest = true →
    lexFinish ((itemsChars vs ++ rest).foldl lexStep ⟨acc, .between, false⟩) =
      lexFinish (rest.foldl lexStep ⟨(itemsTokens vs).reverse ++ acc, .between, false⟩)
  | [], acc, rest, _, _ => rfl
  | v :: vs, acc, rest, hv, hr => by
    have hv1 : v.numbersValid = true ∧ itemsNumbersValid vs = true := by
      simpa [itemsNumbersValid] using hv
    have h1 := lex_value v (.comma :: acc) (itemsChars vs ++ rest) hv1.1
      (boundary_itemsChars vs _ hr)
    have h2 := lex_items vs (v.tokens.reverse ++ .comma :: acc) rest hv1.2 hr
    show lexFinish ((',' :: v.chars ++ itemsChars vs ++ rest).foldl lexStep
      ⟨acc, .between, false⟩) = _
    have e : ',' :: v.chars ++ itemsChars vs ++ rest =
        ',' :: (v.chars ++ (itemsChars vs ++ rest)) := by simp
    rw [e, List.foldl_cons]
    have s1 : lexStep ⟨acc, .between, false⟩ ',' = ⟨.comma :: acc, .between, false⟩ := rfl
    rw [s1, h1, h2]
    apply lexFinish_congr
    simp [itemsTokens]
/-- The scanner reads the text of the members of an object after the first as
their tokens. -/
theorem lex_members : ∀ (ms : List (String × JValue)) (acc : List Token) (rest : List Char),
    membersNumbersValid ms = true → boundary rest = true →
    lexFinish ((membersChars ms ++ rest).foldl lexStep ⟨acc, .between, false⟩) =
      lexFinish (rest.foldl lexStep ⟨(membersTokens ms).reverse ++ acc, .between, false⟩)
  | [], acc, rest, _, _ => rfl
  | (k, v) :: ms, acc, rest, hv, hr => by
    have hv1 : v.numbersValid = true ∧ membersNumbersValid ms = true := by
      simpa [membersNumbersValid] using hv
    have h1 := lex_value v (.colon :: .str k :: .comma :: acc) (membersChars ms ++ rest) hv1.1
      (boundary_membersChars ms _ hr)
    have h2 := lex_members ms (v.tokens.reverse ++ .colon :: .str k :: .comma :: acc) rest
      hv1.2 hr
    show lexFinish ((',' :: quoteChars k ++ ':' :: v.chars ++ membersChars ms ++ rest).foldl
      lexStep ⟨acc, .between, false⟩) = _
    have e : ',' :: quoteChars k ++ ':' :: v.chars ++ membersChars ms ++ rest =
        ',' :: (quoteChars k ++ ':' :: (v.chars ++ (membersChars ms ++ rest))) := by simp
    rw [e, List.foldl_cons]
    have s1 : lexStep ⟨acc, .between, false⟩ ',' = ⟨.comma :: acc, .between, false⟩ := rfl
    rw [s1, lex_quote, List.foldl_cons]
    have s2 : lexStep ⟨.str k :: .comma :: acc, .between, false⟩ ':' =
        ⟨.colon :: .str k :: .comma :: acc, .between, false⟩ := rfl
    rw [s2, h1, h2]
    apply lexFinish_congr
    simp [membersTokens]
end

/-- Where a value may start, a token other than the closing bracket is read as
the start of a value. -/
theorem readStep_begin (stack : List Frame) (ph : Phase) (t : Token)
    (hph : ph = .beginValue ∨ ph = .beginValueOrEmpty) (hne : t ≠ .rbrack) :
    readStep ⟨stack, ph⟩ t = beginValue stack t := by
  rcases hph with rfl | rfl
  · rfl
  · cases t <;> first | exact absurd rfl hne | (cases stack with
      | nil => rfl
      | cons f st => cases f <;> rfl)

/-- The reader opens an array where a value may start. -/
theorem readStep_lbrack (stack : List Frame) (ph : Phase)
    (hph : ph = .beginValue ∨ ph = .beginValueOrEmpty)
    (hd : stack.length + 1 ≤ maxNestingDepth) :
    readStep ⟨stack, ph⟩ .lbrack = ⟨.arr [] :: stack, .beginValueOrEmpty⟩ := by
  rw [readStep_begin stack ph .lbrack hph (by simp)]
  simp [beginValue, push, hd]

/-- The reader opens an object where a value may start. -/
theorem readStep_lbrace (stack : List Frame) (ph : Phase)
    (hph : ph = .beginValue ∨ ph = .beginValueOrEmpty)
    (hd : stack.length + 1 ≤ maxNestingDepth) :
    readStep ⟨stack, ph⟩ .lbrace = ⟨.obj [] none :: stack, .beginStringOrEmpty⟩ := by
  rw [readStep_begin stack ph .lbrace hph (by simp)]
  simp [beginValue, push, hd]

mutual
/-- The reader reads the tokens of a value, where a value may start, as the
value. -/
theorem read_value : ∀ (v : JValue) (stack : List Frame) (ph : Phase) (rest : List Token),
    (ph = .beginValue ∨ ph = .beginValueOrEmpty) →
    stack.length + v.depth ≤ maxNestingDepth →
    (v.tokens ++ rest).foldl readStep ⟨stack, ph⟩ = rest.foldl readStep (deliver v stack)
  | .null, stack, ph, rest, hph, _ => by
    show rest.foldl readStep (readStep ⟨stack, ph⟩ .litNull) = _
    rw [readStep_begin stack ph _ hph (by simp)]
    rfl
  | .bool true, stack, ph, rest, hph, _ => by
    show rest.foldl readStep (readStep ⟨stack, ph⟩ .litTrue) = _
    rw [readStep_begin stack ph _ hph (by simp)]
    rfl
  | .bool false, stack, ph, rest, hph, _ => by
    show rest.foldl readStep (readStep ⟨stack, ph⟩ .litFalse) = _
    rw [readStep_begin stack ph _ hph (by simp)]
    rfl
  | .number lit, stack, ph, rest, hph, _ => by
    show rest.foldl readStep (readStep ⟨stack, ph⟩ (.num lit)) = _
    rw [readStep_begin stack ph _ hph (by simp)]
    rfl
  | .string s, stack, ph, rest, hph, _ => by
    show rest.foldl readStep (readStep ⟨stack, ph⟩ (.str s)) = _
    rw [readStep_begin stack ph _ hph (by simp)]
    rfl
  | .array [], stack, ph, rest, hph, hd => by
    have hd1 : stack.length + 1 ≤ maxNestingDepth := by
      simp only [JValue.depth, itemsDepth] at hd
      omega
    show rest.foldl readStep (readStep (readStep ⟨stack, ph⟩ .lbrack) .rbrack) = _
    rw [readStep_lbrack stack ph hph hd1]
    rfl
  | .array (v :: vs), stack, ph, rest, hph, hd => by
    have hd0 : stack.length + (1 + max v.depth (itemsDepth vs)) ≤ maxNestingDepth := hd
    have hd1 : stack.length + 1 ≤ maxNestingDepth := by omega
    have h1 := read_value v (.arr [] :: stack) .beginValueOrEmpty
      (itemsTokens vs ++ .rbrack :: rest) (Or.inr rfl)
      (by simp only [List.length_cons]; omega)
    have h2 := read_items vs stack [v] rest (by omega)
    show (Token.lbrack :: v.tokens ++ itemsTokens vs ++ [Token.rbrack] ++ rest).foldl readStep
      ⟨stack, ph⟩ = _
    have e : Token.lbrack :: v.tokens ++ itemsTokens vs ++ [Token.rbrack] ++ rest =
        Token.lbrack :: (v.tokens ++ (itemsTokens vs ++ Token.rbrack :: rest)) := by simp
    rw [e, List.foldl_cons, readStep_lbrack stack ph hph hd1, h1]
    exact h2
  | .object [], stack, ph, rest, hph, hd => by
    have hd1 : stack.length + 1 ≤ maxNestingDepth := by
      simp only [JValue.depth, membersDepth] at hd
      omega
    show rest.foldl readStep (readStep (readStep ⟨stack, ph⟩ .lbrace) .rbrace) = _
    rw [readStep_lbrace stack ph hph hd1]
    rfl
  | .object ((k, v) :: ms), stack, ph, rest, hph, hd => by
    have hd0 : stack.length + (1 + max v.depth (membersDepth ms)) ≤ maxNestingDepth := hd
    have hd1 : stack.length + 1 ≤ maxNestingDepth := by omega
    have h1 := read_value v (.obj [] (some k) :: stack) .beginValue
      (membersTokens ms ++ .rbrace :: rest) (Or.inl rfl)
      (by simp only [List.length_cons]; omega)
    have h2 := read_members ms stack [(k, v)] rest (by omega)
    show (Token.lbrace :: Token.str k :: Token.colon :: v.tokens ++ membersTokens ms ++ [Token.rbrace] ++
      rest).foldl readStep ⟨stack, ph⟩ = _
    have e : Token.lbrace :: Token.str k :: Token.colon :: v.tokens ++ membersTokens ms ++ [Token.rbrace] ++ rest =
        Token.lbrace :: Token.str k :: Token.colon :: (v.tokens ++ (membersTokens ms ++ Token.rbrace :: rest)) := by
      simp
    rw [e, List.foldl_cons, readStep_lbrace stack ph hph hd1]
    show (v.tokens ++ (membersTokens ms ++ .rbrace :: rest)).foldl readStep
      ⟨.obj [] (some k) :: stack, .beginValue⟩ = _
    rw [h1]
    exact h2
/-- The reader reads the tokens of the items of an array after the first and
the closing bracket, and delivers the array. -/
theorem read_items : ∀ (vs : List JValue) (stack : List Frame) (items : List JValue)
    (rest : List Token), stack.length + 1 + itemsDepth vs ≤ maxNestingDepth →
    (itemsTokens vs ++ .rbrack :: rest).foldl readStep ⟨.arr items :: stack, .afterValue⟩ =
      rest.foldl readStep (deliver (.array (items.reverse ++ vs)) stack)
  | [], stack, items, rest, _ => by
    show rest.foldl readStep (deliver (.array items.reverse) stack) = _
    simp
  | v :: vs, stack, items, rest, hd => by
    have hd0 : stack.length + 1 + max v.depth (itemsDepth vs) ≤ maxNestingDepth := hd
    have h1 := read_value v (.arr items :: stack) .beginValue (itemsTokens vs ++ .rbrack :: rest)
      (Or.inl rfl) (by simp only [List.length_cons]; omega)
    have h2 := read_items vs stack (v :: items) rest (by omega)
    show (Token.comma :: v.tokens ++ itemsTokens vs ++ Token.rbrack :: rest).foldl readStep
      ⟨.arr items :: stack, .afterValue⟩ = _
    have e : Token.comma :: v.tokens ++ itemsTokens vs ++ Token.rbrack :: rest =
        Token.comma :: (v.tokens ++ (itemsTokens vs ++ Token.rbrack :: rest)) := by simp
    rw [e, List.foldl_cons]
    show (v.tokens ++ (itemsTokens vs ++ .rbrack :: rest)).foldl readStep
      ⟨.arr items :: stack, .beginValue⟩ = _
    rw [h1]
    show (itemsTokens vs ++ .rbrack :: rest).foldl readStep
      ⟨.arr (v :: items) :: stack, .afterValue⟩ = _
    rw [h2]
    simp
/-- The reader reads the tokens of the members of an object after the first
and the closing brace, and delivers the object. -/
theorem read_members : ∀ (ms : List (String × JValue)) (stack : List Frame)
    (acc : List (String × JValue)) (rest : List Token),
    stack.length + 1 + membersDepth ms ≤ maxNestingDepth →
    (membersTokens ms ++ .rbrace :: rest).foldl readStep ⟨.obj acc none :: stack, .afterValue⟩ =
      rest.foldl readStep (deliver (.object (acc.reverse ++ ms)) stack)
  | [], stack, acc, rest, _ => by
    show rest.foldl readStep (deliver (.object acc.reverse) stack) = _
    simp
  | (k, v) :: ms, stack, acc, rest, hd => by
    have hd0 : stack.length + 1 + max v.depth (membersDepth ms) ≤ maxNestingDepth := hd
    have h1 := read_value v (.obj acc (some k) :: stack) .beginValue
      (membersTokens ms ++ .rbrace :: rest) (Or.inl rfl)
      (by simp only [List.length_cons]; omega)
    have h2 := read_members ms stack ((k, v) :: acc) rest (by omega)
    show (Token.comma :: Token.str k :: Token.colon :: v.tokens ++ membersTokens ms ++ Token.rbrace :: rest).foldl
      readStep ⟨.obj acc none :: stack, .afterValue⟩ = _
    have e : Token.comma :: Token.str k :: Token.colon :: v.tokens ++ membersTokens ms ++ Token.rbrace :: rest =
        Token.comma :: Token.str k :: Token.colon :: (v.tokens ++ (membersTokens ms ++ Token.rbrace :: rest)) := by
      simp
    rw [e]
    show (v.tokens ++ (membersTokens ms ++ .rbrace :: rest)).foldl readStep
      ⟨.obj acc (some k) :: stack, .beginValue⟩ = _
    rw [h1]
    show (membersTokens ms ++ .rbrace :: rest).foldl readStep
      ⟨.obj ((k, v) :: acc) none :: stack, .afterValue⟩ = _
    rw [h2]
    simp
end

/-- The text of a well-formed value is read back as the value. -/
theorem parseJSON_text (v : JValue) (h : v.WellFormed) : parseJSON v.text = some v := by
  have hlex := lex_value v [] [] h.1 rfl
  have hread := read_value v [] .beginValue [] (Or.inl rfl) (by simpa using h.2)
  have htok : tokenize v.chars = some v.tokens := by
    have e : tokenize v.chars = lexFinish (v.chars.foldl lexStep ⟨[], .between, false⟩) := rfl
    rw [e]
    simp only [List.append_nil] at hlex
    rw [hlex]
    simp [lexFinish]
  show (match tokenize v.chars with
    | some ts => readTokens ts
    | none => none) = some v
  rw [htok]
  simp only [List.append_nil] at hread
  simp [readTokens, hread, deliver]

/-- A repeated `Data` key: the second array is decoded into the entries of the
first, so an entry keeps the fields the second array does not mention; and an
entry cut off by a shorter array comes back when a later array is longer. -/
theorem Unmarshal_repeated_Data :
    Unmarshal (ChartSelectResponse.decode DemoEntry.decode ⟨"", ""⟩) ChartSelectResponse.zero
        "\x7b\"Data\":[\x7b\"Name\":\"a\",\"Value\":1\x7d],\"Data\":[\x7b\"Name\":\"b\"\x7d]\x7d" =
      (⟨"", "", some [some ⟨"b", "1"⟩], false⟩, none) ∧
    Unmarshal (ChartSelectResponse.decode DemoEntry.decode ⟨"", ""⟩) ChartSelectResponse.zero
        "\x7b\"Data\":[\x7b\"Name\":\"a\"\x7d,\x7b\"Name\":\"b\",\"Value\":2\x7d],\"Data\":[null],\"Data\":[\x7b\x7d,\x7b\"Name\":\"c\"\x7d]\x7d" =
      (⟨"", "", some [some ⟨"", ""⟩, some ⟨"c", "2"⟩], false⟩, none) ∧
    Unmarshal (ChartSelectResponse.decode DemoEntry.decode ⟨"", ""⟩) ChartSelectResponse.zero
        "\x7b\"Data\":[\x7b\"Name\":\"a\"\x7d],\"Data\":[],\"Data\":[\x7b\"Value\":3\x7d]\x7d" =
      (⟨"", "", some [some ⟨"", "3"⟩], false⟩, none) :=
  ⟨rfl, rfl, rfl⟩

/-- Members that are all strings hold no number and nest nothing. -/
theorem members_of_strings (ms : List (String × JValue))
    (h : ∀ m ∈ ms, ∃ s, m.2 = .string s) :
    membersNumbersValid ms = true ∧ membersDepth ms = 0 := by
  induction ms with
  | nil => exact ⟨rfl, rfl⟩
  | cons m ms ih =>
    obtain ⟨k, v⟩ := m
    obtain ⟨s, hs⟩ := h (k, v) (List.mem_cons_self _ _)
    have hv : v = .string s := hs
    subst hv
    have ih1 := ih (fun x hx => h x (List.mem_cons_of_mem _ hx))
    simp [membersNumbersValid, membersDepth, JValue.numbersValid, JValue.depth, ih1.1, ih1.2]

/-- A JSON value that encodes a SQL response is well formed. -/
theorem sql_encoded_wellFormed (r : SQLResponse) (v : JValue)
    (h : SQLResponse.EncodedBy r v) : v.WellFormed := by
  obtain ⟨ms, rfl, hp⟩ := h
  have hs : ∀ m ∈ ms, ∃ s, m.2 = .string s := by
    intro m hm
    have hm1 := hp.mem_iff.mp hm
    simp only [SQLResponse.members, List.mem_cons, List.mem_singleton, List.not_mem_nil,
      or_false] at hm1
    rcases hm1 with rfl | rfl | rfl | rfl <;> exact ⟨_, rfl⟩
  have h1 := members_of_strings ms hs
  refine ⟨?_, ?_⟩
  · simpa [JValue.numbersValid] using h1.1
  · simp [JValue.depth, h1.2, maxNestingDepth]

end Lemmas

section Claims

variable {σ D : Type}

/-- C1: when a step of `SaveToGraph` (WriteModule, VertexQuery, WriteBodyText,
WriteJS, SlugID, in that order) returns an error, `SaveToGraph` returns the
empty string together with a non-nil error, which wraps the error of that step,
and the failing step is the last library call made: no later step runs. -/
theorem SaveToGraph_returns_first_error (sv : Services σ D) (ctx : Context)
    (id title body js featureImage user : String) (s : State σ D) (e : Event D)
    (he : e ∈ emitted s (SaveToGraph sv ctx id title body js featureImage user s).2)
    (hfail : e.err ≠ none) :
    (SaveToGraph sv ctx id title body js featureImage user s).1.1 = "" ∧
    (SaveToGraph sv ctx id title body js featureImage user s).1.2 ≠ none ∧
    (∃ format, (SaveToGraph sv ctx id title body js featureImage user s).1.2
        = e.err.map (GoError.errorf format [])) ∧
    (emitted s (SaveToGraph sv ctx id title body js featureImage user s).2).getLast? = some e ∧
    (emitted s (SaveToGraph sv ctx id title body js featureImage user s).2).map Event.name <+:
      ["time.Now", "WriteModule", "VertexQuery", "WriteBodyText", "WriteJS", "SlugID",
        "SlugTitle"] := by
  simp only [SaveToGraph, State.record, State.step, List.append_assoc] at he ⊢
  rcases hwm : (sv.writeModule s.world s.bot.graphStore ctx
      (buildModule id title featureImage user (sv.timeNowFormat s.world "2006-01-02")))
    with ⟨_ | e1, w1⟩
  · simp only [hwm] at he ⊢
    rcases hvq : (sv.vertexQuery
        (buildModule id title featureImage user (sv.timeNowFormat s.world "2006-01-02")))
      with ⟨q, _ | e2⟩
    · simp only [hvq] at he ⊢
      rcases hwb : sv.writeBodyText w1 s.bot.graphStore ctx q body with ⟨_ | e3, w3⟩
      · simp only [hwb] at he ⊢
        rcases hwj : sv.writeJS w3 s.bot.graphStore ctx q (js ++ "\n\nmodule.initAdUnits();")
          with ⟨_ | e4, w4⟩
        · simp only [hwj] at he ⊢
          rcases hsid : (sv.slugID
              (buildModule id title featureImage user (sv.timeNowFormat s.world "2006-01-02")))
            with ⟨sid, _ | e5⟩
          · simp only [hsid, emitted_append] at he ⊢
            simp at he
            rcases he with rfl | rfl | rfl | rfl | rfl | rfl | rfl <;> simp [Event.err] at hfail
          · simp only [hsid, emitted_append] at he ⊢
            simp at he
            rcases he with rfl | rfl | rfl | rfl | rfl | rfl <;>
              first
              | (simp [Event.err] at hfail; done)
              | simp [Event.err, Event.name]
        · simp only [hwj, emitted_append] at he ⊢
          simp at he
          rcases he with rfl | rfl | rfl | rfl | rfl <;>
            first
            | (simp [Event.err] at hfail; done)
            | simp [Event.err, Event.name]
      · simp only [hwb, emitted_append] at he ⊢
        simp at he
        rcases he with rfl | rfl | rfl | rfl <;>
          first
          | (simp [Event.err] at hfail; done)
          | simp [Event.err, Event.name]
    · simp only [hvq, emitted_append] at he ⊢
      simp at he
      rcases he with rfl | rfl | rfl <;>
        first
        | (simp [Event.err] at hfail; done)
        | simp [Event.err, Event.name]
  · simp only [hwm, emitted_append] at he ⊢
    simp at he
    rcases he with rfl | rfl <;>
      first
      | (simp [Event.err] at hfail; done)
      | simp [Event.err, Event.name]

/-- An instance of C1: the store refuses the body text, so `SaveToGraph`
returns the empty string and an error, and the refused write is its last
call. -/
theorem SaveToGraph_returns_first_error_witness :
    (SaveToGraph (demo emptyReply "WriteBodyText") ⟨0⟩ "m1" "Roads"
        "<p>roads</p>" "draw();" "roads.png" "ann" demoState).1.1 = "" ∧
    (SaveToGraph (demo emptyReply "WriteBodyText") ⟨0⟩ "m1" "Roads"
        "<p>roads</p>" "draw();" "roads.png" "ann" demoState).1.2 ≠ none ∧
    (emitted demoState (SaveToGraph (demo emptyReply "WriteBodyText") ⟨0⟩ "m1" "Roads"
        "<p>roads</p>" "draw();" "roads.png" "ann" demoState).2).getLast? =
      some (.writeBodyText ⟨3⟩ ⟨0⟩ ⟨"V m1"⟩ "<p>roads</p>" (some (.lib "store"))) :=
  have h := SaveToGraph_returns_first_error (demo emptyReply "WriteBodyText") ⟨0⟩ "m1" "Roads"
    "<p>roads</p>" "draw();" "roads.png" "ann" demoState
    (.writeBodyText ⟨3⟩ ⟨0⟩ ⟨"V m1"⟩ "<p>roads</p>" (some (.lib "store")))
    (by simp [SaveToGraph, demo, demoState, demoBot, State.record, State.step, emitted,
      buildModule])
    (by simp [Event.err])
  ⟨h.1, h.2.1, h.2.2.2.1⟩

/-- C2: a reply without choices, returned by the API with a nil error, makes
`SQLAnalysis` and `SelectChart` panic on the read of `Choices[0]`: they return
neither a response nor an error. -/
theorem first_choice_read_panics_on_empty_reply (sv : Services σ D) (ctx : Context)
    (question dataTable query : String) (s : State σ D) :
    (SQLAnalysis
      { sv with
        templateExecute := fun _ _ _ => (query, none)
        createChatCompletion := fun w _ _ _ => ((⟨[]⟩, none), w) }
      ctx question s).1 = .panicked indexPanic ∧
    (SelectChart
      { sv with
        templateExecute := fun _ _ _ => (query, none)
        createChatCompletion := fun w _ _ _ => ((⟨[]⟩, none), w) }
      ctx question dataTable s).1 = .panicked indexPanic := by
  constructor <;> rfl

/-- C6: every method leaves the six fields of the bot as they were, whatever
the libraries return and whether the method returns a value, an error or
panics. -/
theorem methods_leave_bot_unchanged (sv : Services σ D) (ctx : Context)
    (question dataTable sqlQuery id title body js featureImage user : String) (s : State σ D) :
    (SQLAnalysis sv ctx question s).2.bot = s.bot ∧
    (LoadResults sv sqlQuery s).2.bot = s.bot ∧
    (SelectChart sv ctx question dataTable s).2.bot = s.bot ∧
    (HasGraphStore s).2.bot = s.bot ∧
    (SaveToGraph sv ctx id title body js featureImage user s).2.bot = s.bot := by
  refine ⟨?_, rfl, ?_, rfl, ?_⟩
  · simp only [SQLAnalysis, State.record, State.step]
    repeat' split
    all_goals rfl
  · simp only [SelectChart, State.record, State.step]
    repeat' split
    all_goals rfl
  · simp only [SaveToGraph, State.record, State.step]
    repeat' split
    all_goals rfl

/-- C4: a call of `SQLAnalysis` or `SelectChart` executes its prompt template
once; it sends exactly one chat-completion request when the execution
succeeded and none when it failed, whatever the API returns. -/
theorem one_request_per_call (sv : Services σ D) (ctx : Context)
    (question dataTable : String) (s : State σ D) :
    (callCount "Execute" (emitted s (SQLAnalysis sv ctx question s).2) = 1 ∧
      ((∀ e ∈ emitted s (SQLAnalysis sv ctx question s).2, e.isExecute = true → e.err = none) →
        callCount "CreateChatCompletion" (emitted s (SQLAnalysis sv ctx question s).2) = 1) ∧
      ((∃ e ∈ emitted s (SQLAnalysis sv ctx question s).2, e.isExecute = true ∧ e.err ≠ none) →
        callCount "CreateChatCompletion" (emitted s (SQLAnalysis sv ctx question s).2) = 0)) ∧
    (callCount "Execute" (emitted s (SelectChart sv ctx question dataTable s).2) = 1 ∧
      ((∀ e ∈ emitted s (SelectChart sv ctx question dataTable s).2,
          e.isExecute = true → e.err = none) →
        callCount "CreateChatCompletion"
          (emitted s (SelectChart sv ctx question dataTable s).2) = 1) ∧
      ((∃ e ∈ emitted s (SelectChart sv ctx question dataTable s).2,
          e.isExecute = true ∧ e.err ≠ none) →
        callCount "CreateChatCompletion"
          (emitted s (SelectChart sv ctx question dataTable s).2) = 0)) := by
  constructor
  · simp only [SQLAnalysis, State.record, State.step, List.append_assoc]
    rcases hex : sv.templateExecute s.world s.bot.sqlGenPrompt
        [("Date", sv.timeNowFormat s.world "January 2, 2006"), ("Command", question)]
      with ⟨text, _ | e1⟩
    · simp only []
      rcases hcc : sv.createChatCompletion s.world s.bot.ai ctx (chatRequest text)
        with ⟨⟨⟨choices⟩, _ | e2⟩, w⟩
      · rcases choices with _ | ⟨choice, rest⟩
        · simp [emitted_append, callCount, Event.name, Event.isExecute, Event.err]
        · simp only []
          split <;>
            simp [emitted_append, callCount, Event.name, Event.isExecute, Event.err]
      · simp [emitted_append, callCount, Event.name, Event.isExecute, Event.err]
    · simp [emitted_append, callCount, Event.name, Event.isExecute, Event.err]
  · simp only [SelectChart, State.record, State.step, List.append_assoc]
    rcases hex : sv.templateExecute s.world s.bot.chartSelectPrompt
        [("Title", question), ("Data", dataTable)]
      with ⟨text, _ | e1⟩
    · simp only []
      rcases hcc : sv.createChatCompletion s.world s.bot.ai ctx (chatRequest text)
        with ⟨⟨⟨choices⟩, _ | e2⟩, w⟩
      · rcases choices with _ | ⟨choice, rest⟩
        · simp [emitted_append, callCount, Event.name, Event.isExecute, Event.err]
        · simp only []
          split <;>
            simp [emitted_append, callCount, Event.name, Event.isExecute, Event.err]
      · simp [emitted_append, callCount, Event.name, Event.isExecute, Event.err]
    · simp [emitted_append, callCount, Event.name, Event.isExecute, Event.err]
/-- An instance of C4: one request when the template executes, none when it
fails. -/
theorem one_request_per_call_witness :
    callCount "CreateChatCompletion"
      (emitted demoState (SQLAnalysis (demo (replyWith "\x7b\x7d") "") ⟨0⟩ "roads" demoState).2)
      = 1 ∧
    callCount "CreateChatCompletion"
      (emitted demoState (SelectChart (demo emptyReply "Execute") ⟨0⟩ "roads" "a,b" demoState).2)
      = 0 := by
  have h1 : emitted demoState
      (SQLAnalysis (demo (replyWith "\x7b\x7d") "") ⟨0⟩ "roads" demoState).2 =
      [.timeNowFormat "January 2, 2006" "January 2, 2006",
        .templateExecute ⟨1⟩ [("Date", "January 2, 2006"), ("Command", "roads")]
          "January 2, 2006roads" none,
        .logPrintf "sending request to openai: %q\n" ["January 2, 2006roads"],
        .createChatCompletion ⟨4⟩ ⟨0⟩ (chatRequest "January 2, 2006roads")
          (replyWith "\x7b\x7d") none,
        .logPrintf "Got reply: %s\n" ["\x7b\x7d"]] := rfl
  have h2 : emitted demoState
      (SelectChart (demo emptyReply "Execute") ⟨0⟩ "roads" "a,b" demoState).2 =
      [.templateExecute ⟨2⟩ [("Title", "roads"), ("Data", "a,b")] ""
        (some (.lib "template"))] := rfl
  exact ⟨(one_request_per_call (demo (replyWith "\x7b\x7d") "") ⟨0⟩ "roads" "a,b"
      demoState).1.2.1 (by rw [h1]; simp [Event.isExecute, Event.err]),
    (one_request_per_call (demo emptyReply "Execute") ⟨0⟩ "roads" "a,b" demoState).2.2.2
      ⟨.templateExecute ⟨2⟩ [("Title", "roads"), ("Data", "a,b")] "" (some (.lib "template")),
        by rw [h2]; exact List.mem_singleton.mpr rfl, rfl, by simp [Event.err]⟩⟩

/-- C5: every chat-completion request sent by `SQLAnalysis` and by
`SelectChart` has the model `Model` (gpt-3.5-turbo), the temperature `RespTemp`
(0.1) and exactly one message, of role user, whose content is the whole output
of the prompt template: `sqlGenPrompt` executed with the question as `Command`,
`chartSelectPrompt` executed with the question as `Title` and the data table as
`Data`. -/
theorem request_shape (sv : Services σ D) (ctx : Context) (question dataTable : String)
    (s : State σ D) (client : Ptr) (c : Context) (req : ChatCompletionRequest)
    (resp : ChatCompletionResponse) (err : Option GoError) :
    (Model = "gpt-3.5-turbo" ∧ RespTemp = 1 / 10 ∧ ChatMessageRoleUser = "user") ∧
    (Event.createChatCompletion client c req resp err ∈
        emitted s (SQLAnalysis sv ctx question s).2 →
      req.Model = Model ∧ req.Temperature = RespTemp ∧
      req.Messages = [⟨ChatMessageRoleUser,
        (sv.templateExecute s.world s.bot.sqlGenPrompt
          [("Date", sv.timeNowFormat s.world "January 2, 2006"), ("Command", question)]).1⟩] ∧
      (sv.templateExecute s.world s.bot.sqlGenPrompt
          [("Date", sv.timeNowFormat s.world "January 2, 2006"), ("Command", question)]).2
        = none) ∧
    (Event.createChatCompletion client c req resp err ∈
        emitted s (SelectChart sv ctx question dataTable s).2 →
      req.Model = Model ∧ req.Temperature = RespTemp ∧
      req.Messages = [⟨ChatMessageRoleUser,
        (sv.templateExecute s.world s.bot.chartSelectPrompt
          [("Title", question), ("Data", dataTable)]).1⟩] ∧
      (sv.templateExecute s.world s.bot.chartSelectPrompt
          [("Title", question), ("Data", dataTable)]).2 = none) := by
  refine ⟨⟨rfl, rfl, rfl⟩, ?_, ?_⟩
  · simp only [SQLAnalysis, State.record, State.step, List.append_assoc]
    rcases sv.templateExecute s.world s.bot.sqlGenPrompt
        [("Date", sv.timeNowFormat s.world "January 2, 2006"), ("Command", question)]
      with ⟨text, _ | e1⟩
    · simp only []
      rcases sv.createChatCompletion s.world s.bot.ai ctx (chatRequest text)
        with ⟨⟨⟨choices⟩, _ | e2⟩, w⟩
      · rcases choices with _ | ⟨choice, rest⟩
        · simp only [emitted_append]
          intro h
          simp at h
          obtain ⟨-, -, rfl, -, -⟩ := h
          simp [chatRequest]
        · simp only []
          split <;>
          · simp only [emitted_append]
            intro h
            simp at h
            obtain ⟨-, -, rfl, -, -⟩ := h
            simp [chatRequest]
      · simp only [emitted_append]
        intro h
        simp at h
        obtain ⟨-, -, rfl, -, -⟩ := h
        simp [chatRequest]
    · simp [emitted_append]
  · simp only [SelectChart, State.record, State.step, List.append_assoc]
    rcases sv.templateExecute s.world s.bot.chartSelectPrompt
        [("Title", question), ("Data", dataTable)]
      with ⟨text, _ | e1⟩
    · simp only []
      rcases sv.createChatCompletion s.world s.bot.ai ctx (chatRequest text)
        with ⟨⟨⟨choices⟩, _ | e2⟩, w⟩
      · rcases choices with _ | ⟨choice, rest⟩
        · simp only [emitted_append]
          intro h
          simp at h
          obtain ⟨-, -, rfl, -, -⟩ := h
          simp [chatRequest]
        · simp only []
          split <;>
          · simp only [emitted_append]
            intro h
            simp at h
            obtain ⟨-, -, rfl, -, -⟩ := h
            simp [chatRequest]
      · simp only [emitted_append]
        intro h
        simp at h
        obtain ⟨-, -, rfl, -, -⟩ := h
        simp [chatRequest]
    · simp [emitted_append]

/-- An instance of C5: the request `SQLAnalysis` sends in the example world. -/
theorem request_shape_witness :
    (chatRequest "January 2, 2006roads").Model = "gpt-3.5-turbo" ∧
    (chatRequest "January 2, 2006roads").Temperature = 1 / 10 ∧
    (chatRequest "January 2, 2006roads").Messages = [⟨"user", "January 2, 2006roads"⟩] :=
  have h := (request_shape (demo (replyWith "\x7b\x7d") "") ⟨0⟩ "roads" "a,b" demoState ⟨4⟩ ⟨0⟩
    (chatRequest "January 2, 2006roads") (replyWith "\x7b\x7d") none).2.1
    (by rw [demo_SQLAnalysis_trace]; simp)
  ⟨h.1, h.2.1, h.2.2.1⟩

/-- C9: the text `SaveToGraph` passes to WriteBodyText is `body`, the text it
passes to WriteJS is `js` followed by the initAdUnits line, and both writes
go to the bot's store with the caller's context and the vertex query that
VertexQuery returned for the module. -/
theorem SaveToGraph_write_arguments (sv : Services σ D) (ctx : Context)
    (id title body js featureImage user : String) (s : State σ D)
    (store : Ptr) (c : Context) (q : VertexQuery) (text : String) (err : Option GoError) :
    (Event.writeBodyText store c q text err ∈
        emitted s (SaveToGraph sv ctx id title body js featureImage user s).2 →
      text = body ∧ store = s.bot.graphStore ∧ c = ctx ∧
      q = (sv.vertexQuery
        (buildModule id title featureImage user (sv.timeNowFormat s.world "2006-01-02"))).1 ∧
      Event.vertexQuery
        (buildModule id title featureImage user (sv.timeNowFormat s.world "2006-01-02")) q none ∈
        emitted s (SaveToGraph sv ctx id title body js featureImage user s).2) ∧
    (Event.writeJS store c q text err ∈
        emitted s (SaveToGraph sv ctx id title body js featureImage user s).2 →
      text = js ++ "\n\nmodule.initAdUnits();" ∧ store = s.bot.graphStore ∧ c = ctx ∧
      q = (sv.vertexQuery
        (buildModule id title featureImage user (sv.timeNowFormat s.world "2006-01-02"))).1 ∧
      Event.vertexQuery
        (buildModule id title featureImage user (sv.timeNowFormat s.world "2006-01-02")) q none ∈
        emitted s (SaveToGraph sv ctx id title body js featureImage user s).2 ∧
      Event.writeBodyText store c q body none ∈
        emitted s (SaveToGraph sv ctx id title body js featureImage user s).2) := by
  simp only [SaveToGraph, State.record, State.step, List.append_assoc]
  rcases hwm : (sv.writeModule s.world s.bot.graphStore ctx
      (buildModule id title featureImage user (sv.timeNowFormat s.world "2006-01-02")))
    with ⟨_ | e1, w1⟩
  · simp only []
    rcases hvq : (sv.vertexQuery
        (buildModule id title featureImage user (sv.timeNowFormat s.world "2006-01-02")))
      with ⟨q0, _ | e2⟩
    · simp only []
      rcases hwb : sv.writeBodyText w1 s.bot.graphStore ctx q0 body with ⟨_ | e3, w3⟩
      · simp only []
        rcases hwj : sv.writeJS w3 s.bot.graphStore ctx q0 (js ++ "\n\nmodule.initAdUnits();")
          with ⟨_ | e4, w4⟩
        · simp only []
          rcases hsid : (sv.slugID
              (buildModule id title featureImage user (sv.timeNowFormat s.world "2006-01-02")))
            with ⟨sid, _ | e5⟩ <;>
          · simp only [emitted_append]
            constructor <;>
            · intro h
              simp at h
              obtain ⟨rfl, rfl, rfl, rfl, -⟩ := h
              simp
        · simp only [emitted_append]
          constructor <;>
          · intro h
            simp at h
            obtain ⟨rfl, rfl, rfl, rfl, -⟩ := h
            simp
      · simp only [emitted_append]
        constructor <;>
        · intro h
          simp at h
          try obtain ⟨rfl, rfl, rfl, rfl, -⟩ := h
          try simp
    · simp [emitted_append]
  · simp [emitted_append]

/-- An instance of C9: the JavaScript written in the example world. -/
theorem SaveToGraph_write_arguments_witness :
    "draw();\n\nmodule.initAdUnits();" = "draw();" ++ "\n\nmodule.initAdUnits();" ∧
    Event.writeBodyText ⟨3⟩ ⟨0⟩ ⟨"V m1"⟩ "<p>roads</p>" none ∈
      emitted demoState (SaveToGraph (demo emptyReply "") ⟨0⟩ "m1" "Roads"
        "<p>roads</p>" "draw();" "roads.png" "ann" demoState).2 :=
  have h := (SaveToGraph_write_arguments (demo emptyReply "") ⟨0⟩ "m1" "Roads"
    "<p>roads</p>" "draw();" "roads.png" "ann" demoState ⟨3⟩ ⟨0⟩ ⟨"V m1"⟩
    "draw();\n\nmodule.initAdUnits();" none).2
    (by rw [demo_SaveToGraph_success]; simp)
  ⟨h.1, h.2.2.2.2.2⟩

/-- C10: when every library call of `SaveToGraph` succeeds, it returns a nil
error and the path `/mod/<slugID>/<slugTitle>`, where the slugs are those of
the module it built and wrote to the store, with ID `id`, Name `title`,
Headline `<h1>City Budget: title</h1>` (the title verbatim), Creators `[user]`
and FeatureImage `featureImage`. -/
theorem SaveToGraph_success_path (sv : Services σ D) (ctx : Context)
    (id title body js featureImage user : String) (s : State σ D)
    (hok : ∀ e ∈ emitted s (SaveToGraph sv ctx id title body js featureImage user s).2,
      e.err = none) :
    (SaveToGraph sv ctx id title body js featureImage user s).1 =
      ("/mod/" ++
        (sv.slugID (buildModule id title featureImage user
          (sv.timeNowFormat s.world "2006-01-02"))).1 ++ "/" ++
        sv.slugTitle (buildModule id title featureImage user
          (sv.timeNowFormat s.world "2006-01-02")), none) ∧
    (buildModule id title featureImage user (sv.timeNowFormat s.world "2006-01-02")).ID = id ∧
    (buildModule id title featureImage user (sv.timeNowFormat s.world "2006-01-02")).Name
      = title ∧
    (buildModule id title featureImage user (sv.timeNowFormat s.world "2006-01-02")).Headline
      = "<h1>City Budget: " ++ title ++ "</h1>" ∧
    (buildModule id title featureImage user (sv.timeNowFormat s.world "2006-01-02")).Creators
      = [user] ∧
    (buildModule id title featureImage user
      (sv.timeNowFormat s.world "2006-01-02")).FeatureImage = featureImage ∧
    Event.writeModule s.bot.graphStore ctx
        (buildModule id title featureImage user (sv.timeNowFormat s.world "2006-01-02")) none ∈
      emitted s (SaveToGraph sv ctx id title body js featureImage user s).2 := by
  refine ⟨?_, rfl, rfl, Sprintf_headline title, rfl, rfl, ?_⟩ <;>
  · simp only [SaveToGraph, State.record, State.step, List.append_assoc] at hok ⊢
    rcases hwm : (sv.writeModule s.world s.bot.graphStore ctx
        (buildModule id title featureImage user (sv.timeNowFormat s.world "2006-01-02")))
      with ⟨_ | e1, w1⟩
    · simp only [hwm] at hok ⊢
      rcases hvq : (sv.vertexQuery
          (buildModule id title featureImage user (sv.timeNowFormat s.world "2006-01-02")))
        with ⟨q, _ | e2⟩
      · simp only [hvq] at hok ⊢
        rcases hwb : sv.writeBodyText w1 s.bot.graphStore ctx q body with ⟨_ | e3, w3⟩
        · simp only [hwb] at hok ⊢
          rcases hwj : sv.writeJS w3 s.bot.graphStore ctx q (js ++ "\n\nmodule.initAdUnits();")
            with ⟨_ | e4, w4⟩
          · simp only [hwj] at hok ⊢
            rcases hsid : (sv.slugID
                (buildModule id title featureImage user (sv.timeNowFormat s.world "2006-01-02")))
              with ⟨sid, _ | e5⟩
            · simp [hsid, emitted_append, Sprintf_path]
            · simp [hsid, emitted_append, Event.err] at hok
          · simp [hwj, emitted_append, Event.err] at hok
        · simp [hwb, emitted_append, Event.err] at hok
      · simp [hvq, emitted_append, Event.err] at hok
    · simp [hwm, emitted_append, Event.err] at hok

/-- An instance of C10: the path returned in the example world. -/
theorem SaveToGraph_success_path_witness :
    (SaveToGraph (demo emptyReply "") ⟨0⟩ "m1" "Roads"
      "<p>roads</p>" "draw();" "roads.png" "ann" demoState).1 = ("/mod/m1/Roads", none) ∧
    (buildModule "m1" "Roads" "roads.png" "ann" "2006-01-02").Headline =
      "<h1>City Budget: Roads</h1>" :=
  have h := SaveToGraph_success_path (demo emptyReply "") ⟨0⟩ "m1" "Roads"
    "<p>roads</p>" "draw();" "roads.png" "ann" demoState
    (by rw [demo_SaveToGraph_success]; simp [Event.err])
  ⟨h.1.trans rfl, h.2.2.2.1.trans rfl⟩

/-- C8 fails as stated: the content `{"SQL":1}` is a valid JSON object, yet
`SQLAnalysis` returns an error for it, because a number cannot be stored into
the string field; and for the content `{"sql":"SELECT 1"}` the key `SQL` is
absent, yet the field `SQL` of the response is not empty, because keys select
fields without regard to case. -/
theorem valid_object_rejected_counterexample :
    parseJSON "\x7b\"SQL\":1\x7d" = some (.object [("SQL", .number "1")]) ∧
    (SQLAnalysis (demo (replyWith "\x7b\"SQL\":1\x7d") "") ⟨0⟩ "roads" demoState).1 =
      .returned (none, some (.errorf "unmarshalling response %q: %v" ["\x7b\"SQL\":1\x7d"]
        (.jsonUnmarshalType "number" "SQLResponse.SQL"))) ∧
    parseJSON "\x7b\"sql\":\"SELECT 1\"\x7d" = some (.object [("sql", .string "SELECT 1")]) ∧
    (SQLAnalysis (demo (replyWith "\x7b\"sql\":\"SELECT 1\"\x7d") "") ⟨0⟩ "roads" demoState).1 =
      .returned (some ⟨"", "", "SELECT 1", ""⟩, none) :=
  ⟨rfl, rfl, rfl, rfl⟩

/-- C8, amended: when the first-choice content is a valid JSON object in which
every member whose key selects a field of `SQLResponse` (equal to its name up
to case) has a string or null value, `SQLAnalysis` returns a nil error,
whichever keys are present, and every field that no key selects is the empty
string in the returned response. -/
theorem typed_object_decodes (sv : Services σ D) (ctx : Context) (question : String)
    (s : State σ D) (client : Ptr) (c : Context) (req : ChatCompletionRequest)
    (choice : ChatCompletionChoice) (rest : List ChatCompletionChoice)
    (members : List (String × JValue))
    (hreply : Event.createChatCompletion client c req ⟨choice :: rest⟩ none ∈
      emitted s (SQLAnalysis sv ctx question s).2)
    (hobj : parseJSON choice.Message.Content = some (.object members))
    (htyped : ∀ m ∈ members,
      (∃ f ∈ SQLResponse.fieldNames, fieldMatches f m.1 = true) → m.2.isStringOrNull = true) :
    ∃ r : SQLResponse, (SQLAnalysis sv ctx question s).1 = .returned (some r, none) ∧
      ((∀ m ∈ members, fieldMatches "Schema" m.1 = false) → r.Schema = "") ∧
      ((∀ m ∈ members, fieldMatches "Applicability" m.1 = false) → r.Applicability = "") ∧
      ((∀ m ∈ members, fieldMatches "SQL" m.1 = false) → r.SQL = "") ∧
      ((∀ m ∈ members, fieldMatches "MissingData" m.1 = false) → r.MissingData = "") := by
  have hrun := SQLAnalysis_of_reply sv ctx question s client c req choice rest hreply
  have hdec : Unmarshal SQLResponse.decode SQLResponse.zero choice.Message.Content =
      members.foldl SQLResponse.storeMember (SQLResponse.zero, none) := by
    simp [Unmarshal, hobj, SQLResponse.decode]
  have hfold := foldl_storeMember members (SQLResponse.zero, none) htyped
  rw [hdec] at hrun
  rw [hfold.1] at hrun
  exact ⟨_, hrun, hfold.2.1, hfold.2.2.1, hfold.2.2.2.1, hfold.2.2.2.2⟩

/-- An instance of C8 as amended: a content with the key `SQL` and a key that
selects no field gives a response with the SQL and an empty Schema, and the
content `{}` gives a response with an empty SQL. -/
theorem typed_object_decodes_witness :
    (∃ r : SQLResponse,
      (SQLAnalysis (demo (replyWith "\x7b\"SQL\":\"SELECT 1\",\"rows\":5\x7d") "") ⟨0⟩ "roads"
        demoState).1 = .returned (some r, none) ∧ r.Schema = "") ∧
    (∃ r : SQLResponse,
      (SQLAnalysis (demo (replyWith "\x7b\x7d") "") ⟨0⟩ "roads" demoState).1 =
        .returned (some r, none) ∧ r.SQL = "") :=
  ⟨(typed_object_decodes (demo (replyWith "\x7b\"SQL\":\"SELECT 1\",\"rows\":5\x7d") "") ⟨0⟩
      "roads" demoState ⟨4⟩ ⟨0⟩ (chatRequest "January 2, 2006roads")
      ⟨⟨"assistant", "\x7b\"SQL\":\"SELECT 1\",\"rows\":5\x7d"⟩⟩ []
      [("SQL", .string "SELECT 1"), ("rows", .number "5")]
      (by rw [demo_SQLAnalysis_trace]; simp [replyWith]) rfl
      (by decide)).elim fun r hr => ⟨r, hr.1, hr.2.1 (by decide)⟩,
    (typed_object_decodes (demo (replyWith "\x7b\x7d") "") ⟨0⟩ "roads" demoState ⟨4⟩ ⟨0⟩
      (chatRequest "January 2, 2006roads") ⟨⟨"assistant", "\x7b\x7d"⟩⟩ [] []
      (by rw [demo_SQLAnalysis_trace]; simp [replyWith]) rfl
      (by simp)).elim fun r hr => ⟨r, hr.1, hr.2.2.2.1 (by simp)⟩⟩

/-- C3: when the chat-completion call of `SQLAnalysis` (resp. `SelectChart`)
succeeds and the content of its first choice is a valid JSON encoding of a
record, the method returns a nil error and that record; when the content is
not valid JSON, it returns a nil response and a non-nil error.  A valid JSON
encoding of a record is a text that is read as a JSON value encoding the
record (`EncodedBy`: an object with the fields of the record under their
names, in any order), in particular the compact JSON text of such a value. -/
theorem decode_valid_succeeds_invalid_fails (sv : Services σ D) (ctx : Context)
    (question dataTable : String) (s : State σ D) (client : Ptr) (c : Context)
    (req : ChatCompletionRequest) (choice : ChatCompletionChoice)
    (rest : List ChatCompletionChoice) :
    (Event.createChatCompletion client c req ⟨choice :: rest⟩ none ∈
        emitted s (SQLAnalysis sv ctx question s).2 →
      (∀ r v, SQLResponse.EncodedBy r v → parseJSON choice.Message.Content = some v →
        (SQLAnalysis sv ctx question s).1 = .returned (some r, none)) ∧
      (∀ r v, SQLResponse.EncodedBy r v → choice.Message.Content = v.text →
        (SQLAnalysis sv ctx question s).1 = .returned (some r, none)) ∧
      (Valid choice.Message.Content = false →
        ∃ e, (SQLAnalysis sv ctx question s).1 = .returned (none, some e))) ∧
    (Event.createChatCompletion client c req ⟨choice :: rest⟩ none ∈
        emitted s (SelectChart sv ctx question dataTable s).2 →
      (∀ r v, ChartSelectResponse.EncodedBy sv.decodeDataEntry sv.zeroDataEntry r v →
        parseJSON choice.Message.Content = some v →
        (SelectChart sv ctx question dataTable s).1 = .returned (some r, none)) ∧
      (∀ r v, ChartSelectResponse.EncodedBy sv.decodeDataEntry sv.zeroDataEntry r v →
        v.WellFormed → choice.Message.Content = v.text →
        (SelectChart sv ctx question dataTable s).1 = .returned (some r, none)) ∧
      (Valid choice.Message.Content = false →
        ∃ e, (SelectChart sv ctx question dataTable s).1 = .returned (none, some e))) := by
  constructor
  · intro h
    have hrun := SQLAnalysis_of_reply sv ctx question s client c req choice rest h
    have hval : ∀ r v, SQLResponse.EncodedBy r v → parseJSON choice.Message.Content = some v →
        (SQLAnalysis sv ctx question s).1 = .returned (some r, none) := by
      intro r v henc hv
      have hu : Unmarshal SQLResponse.decode SQLResponse.zero choice.Message.Content =
          (r, none) := by
        simp [Unmarshal, hv, sql_decode_encoded r v henc]
      rw [hu] at hrun
      exact hrun
    refine ⟨hval, fun r v henc htext => ?_, fun hinv => ?_⟩
    · exact hval r v henc
        (by rw [htext]; exact parseJSON_text v (sql_encoded_wellFormed r v henc))
    · rw [Unmarshal_invalid _ _ _ hinv] at hrun
      exact ⟨_, hrun⟩
  · intro h
    have hrun := SelectChart_of_reply sv ctx question dataTable s client c req choice rest h
    have hval : ∀ r v, ChartSelectResponse.EncodedBy sv.decodeDataEntry sv.zeroDataEntry r v →
        parseJSON choice.Message.Content = some v →
        (SelectChart sv ctx question dataTable s).1 = .returned (some r, none) := by
      intro r v henc hv
      have hu : Unmarshal (ChartSelectResponse.decode sv.decodeDataEntry sv.zeroDataEntry)
          ChartSelectResponse.zero choice.Message.Content = (r, none) := by
        simp [Unmarshal, hv, chart_decode_encoded _ _ r v henc]
      rw [hu] at hrun
      exact hrun
    refine ⟨hval, fun r v henc hwf htext => ?_, fun hinv => ?_⟩
    · exact hval r v henc (by rw [htext]; exact parseJSON_text v hwf)
    · rw [Unmarshal_invalid _ _ _ hinv] at hrun
      exact ⟨_, hrun⟩

/-- An instance of C3.  For `SQLAnalysis`: a reply with the fields in another
order and white space, the compact text of a record with a quotation mark and
a line break in it, and a reply that is plain SQL.  For `SelectChart`: a reply
with two data entries, one of them null, and its first two fields in the other
order, the compact text of the same record, and a reply that is plain text. -/
theorem decode_valid_succeeds_invalid_fails_witness :
    (SQLAnalysis (demo (replyWith sampleSQLText) "") ⟨0⟩ "roads" demoState).1 =
      .returned (some sampleSQL, none) ∧
    (SQLAnalysis (demo (replyWith quotedSQLText) "") ⟨0⟩ "roads" demoState).1 =
      .returned (some quotedSQL, none) ∧
    (∃ e, (SQLAnalysis (demo (replyWith "SELECT 1") "") ⟨0⟩ "roads" demoState).1 =
      .returned (none, some e)) ∧
    (SelectChart (demo (replyWith swappedChartText) "") ⟨0⟩ "roads" "a,b" demoState).1 =
      .returned (some sampleChart, none) ∧
    (SelectChart (demo (replyWith sampleChartText) "") ⟨0⟩ "roads" "a,b" demoState).1 =
      .returned (some sampleChart, none) ∧
    (∃ e, (SelectChart (demo (replyWith "bar chart") "") ⟨0⟩ "roads" "a,b" demoState).1 =
      .returned (none, some e)) := by
  have hsql : ∀ t : String, Event.createChatCompletion ⟨4⟩ ⟨0⟩
      (chatRequest "January 2, 2006roads") ⟨⟨⟨"assistant", t⟩⟩ :: []⟩ none ∈
      emitted demoState (SQLAnalysis (demo (replyWith t) "") ⟨0⟩ "roads" demoState).2 := by
    intro t
    rw [demo_SQLAnalysis_trace]
    simp [replyWith]
  have hentries : List.Forall₂ (EntryEncodedBy DemoEntry.decode ⟨"", ""⟩)
      [some ⟨"a", "1"⟩, none]
      [.object [("Name", .string "a"), ("Value", .number "1")], .null] :=
    .cons ⟨by simp, rfl⟩ (.cons rfl .nil)
  have hdata : DataEncodedBy DemoEntry.decode ⟨"", ""⟩ sampleChart.Data sampleChartData :=
    ⟨_, rfl, hentries⟩
  refine ⟨?_, ?_, ?_, ?_, ?_, ?_⟩
  · exact ((decode_valid_succeeds_invalid_fails (demo (replyWith sampleSQLText) "") ⟨0⟩
      "roads" "a,b" demoState ⟨4⟩ ⟨0⟩ (chatRequest "January 2, 2006roads")
      ⟨⟨"assistant", sampleSQLText⟩⟩ []).1 (hsql _)).1 sampleSQL
      (.object [("Applicability", .string "ok"), ("Schema", .string "budget"),
        ("SQL", .string "SELECT 1"), ("MissingData", .string "")])
      ⟨_, rfl, List.Perm.swap _ _ _⟩ rfl
  · exact ((decode_valid_succeeds_invalid_fails (demo (replyWith quotedSQLText) "") ⟨0⟩
      "roads" "a,b" demoState ⟨4⟩ ⟨0⟩ (chatRequest "January 2, 2006roads")
      ⟨⟨"assistant", quotedSQLText⟩⟩ []).1 (hsql _)).2.1 quotedSQL
      (.object quotedSQL.members) ⟨_, rfl, List.Perm.refl _⟩ rfl
  · exact ((decode_valid_succeeds_invalid_fails (demo (replyWith "SELECT 1") "") ⟨0⟩
      "roads" "a,b" demoState ⟨4⟩ ⟨0⟩ (chatRequest "January 2, 2006roads")
      ⟨⟨"assistant", "SELECT 1"⟩⟩ []).1 (hsql _)).2.2 rfl
  · exact ((decode_valid_succeeds_invalid_fails (demo (replyWith swappedChartText) "") ⟨0⟩
      "roads" "a,b" demoState ⟨4⟩ ⟨0⟩ (chatRequest "roadsa,b")
      ⟨⟨"assistant", swappedChartText⟩⟩ []).2 (demo_SelectChart_request _)).1 sampleChart
      (.object [("Title", .string "Roads"), ("Chart", .string "bar"),
        ("Data", sampleChartData), ("ValueIsCurrency", .bool true)])
      ⟨_, sampleChartData, rfl, hdata, List.Perm.swap _ _ _⟩ rfl
  · exact ((decode_valid_succeeds_invalid_fails (demo (replyWith sampleChartText) "") ⟨0⟩
      "roads" "a,b" demoState ⟨4⟩ ⟨0⟩ (chatRequest "roadsa,b")
      ⟨⟨"assistant", sampleChartText⟩⟩ []).2 (demo_SelectChart_request _)).2.1 sampleChart
      (.object (sampleChart.members sampleChartData))
      ⟨_, sampleChartData, rfl, hdata, List.Perm.refl _⟩ ⟨rfl, by decide⟩ rfl
  · exact ((decode_valid_succeeds_invalid_fails (demo (replyWith "bar chart") "") ⟨0⟩
      "roads" "a,b" demoState ⟨4⟩ ⟨0⟩ (chatRequest "roadsa,b")
      ⟨⟨"assistant", "bar chart"⟩⟩ []).2 (demo_SelectChart_request _)).2.2 rfl

/-- C7 fails as stated: with a store that rolls back on a refused write,
WriteModule succeeds, WriteBodyText fails, and the store after the call is
empty, while the writes that succeeded had left the module in it. -/
theorem store_after_failed_write_counterexample :
    (emitted demoState (SaveToGraph rollbackDemo ⟨0⟩ "m1" "Roads" "<p>roads</p>" "draw();"
        "roads.png" "ann" demoState).2).map (fun e => (e.name, e.err)) =
      [("time.Now", none), ("WriteModule", none), ("VertexQuery", none),
        ("WriteBodyText", some (.lib "store"))] ∧
    replay rollbackDemo demoState.world
      (succeeded (emitted demoState (SaveToGraph rollbackDemo ⟨0⟩ "m1" "Roads" "<p>roads</p>"
        "draw();" "roads.png" "ann" demoState).2)) = ["module m1"] ∧
    (SaveToGraph rollbackDemo ⟨0⟩ "m1" "Roads" "<p>roads</p>" "draw();" "roads.png" "ann"
      demoState).2.world = [] ∧
    (SaveToGraph rollbackDemo ⟨0⟩ "m1" "Roads" "<p>roads</p>" "draw();" "roads.png" "ann"
      demoState).2.world ≠
      replay rollbackDemo demoState.world
        (succeeded (emitted demoState (SaveToGraph rollbackDemo ⟨0⟩ "m1" "Roads" "<p>roads</p>"
          "draw();" "roads.png" "ann" demoState).2)) :=
  ⟨rfl, rfl, rfl, by decide⟩

/-- C7, amended: in every call of `SaveToGraph` each of WriteModule,
WriteBodyText and WriteJS is attempted at most once; a store write that fails
is the last library call, and every call before it succeeded; the store after
the call is the store as left by the operations issued, in order: after a
failing write it is what that write left of the store the earlier writes had
left, and nothing is undone or written after it. -/
theorem SaveToGraph_no_retry_no_recovery (sv : Services σ D) (ctx : Context)
    (id title body js featureImage user : String) (s : State σ D) :
    callCount "WriteModule"
      (emitted s (SaveToGraph sv ctx id title body js featureImage user s).2) ≤ 1 ∧
    callCount "WriteBodyText"
      (emitted s (SaveToGraph sv ctx id title body js featureImage user s).2) ≤ 1 ∧
    callCount "WriteJS"
      (emitted s (SaveToGraph sv ctx id title body js featureImage user s).2) ≤ 1 ∧
    (SaveToGraph sv ctx id title body js featureImage user s).2.world =
      replay sv s.world (emitted s (SaveToGraph sv ctx id title body js featureImage user s).2) ∧
    ∀ e ∈ emitted s (SaveToGraph sv ctx id title body js featureImage user s).2,
      e.isStoreOp = true → e.err ≠ none →
      (emitted s (SaveToGraph sv ctx id title body js featureImage user s).2).getLast? = some e ∧
      (∀ e1 ∈ (emitted s (SaveToGraph sv ctx id title body js featureImage user s).2).dropLast,
        e1.err = none) ∧
      (SaveToGraph sv ctx id title body js featureImage user s).2.world =
        replayStep sv (replay sv s.world
          (emitted s (SaveToGraph sv ctx id title body js featureImage user s).2).dropLast) e := by
  simp only [SaveToGraph, State.record, State.step, List.append_assoc]
  rcases hwm : (sv.writeModule s.world s.bot.graphStore ctx
      (buildModule id title featureImage user (sv.timeNowFormat s.world "2006-01-02")))
    with ⟨_ | e1, w1⟩
  · simp only []
    rcases hvq : (sv.vertexQuery
        (buildModule id title featureImage user (sv.timeNowFormat s.world "2006-01-02")))
      with ⟨q, _ | e2⟩
    · simp only []
      rcases hwb : sv.writeBodyText w1 s.bot.graphStore ctx q body with ⟨_ | e3, w3⟩
      · simp only []
        rcases hwj : sv.writeJS w3 s.bot.graphStore ctx q (js ++ "\n\nmodule.initAdUnits();")
          with ⟨_ | e4, w4⟩
        · simp only []
          rcases hsid : (sv.slugID
              (buildModule id title featureImage user (sv.timeNowFormat s.world "2006-01-02")))
            with ⟨sid, _ | e5⟩ <;>
          · simp only [emitted_append]
            refine ⟨by simp [callCount, Event.name], by simp [callCount, Event.name],
              by simp [callCount, Event.name],
              by simp [replay, replayStep, hwm, hwb, hwj], ?_⟩
            intro e he hs hf
            simp at he
            rcases he with rfl | rfl | rfl | rfl | rfl | rfl | rfl <;>
              simp [Event.err, Event.isStoreOp] at hs hf
        · simp only [emitted_append]
          refine ⟨by simp [callCount, Event.name], by simp [callCount, Event.name],
            by simp [callCount, Event.name],
            by simp [replay, replayStep, hwm, hwb, hwj], ?_⟩
          intro e he hs hf
          simp at he
          rcases he with rfl | rfl | rfl | rfl | rfl <;>
            first
            | (simp [Event.err, Event.isStoreOp] at hs hf; done)
            | simp [Event.err, replay, replayStep, hwm, hwb, hwj, List.dropLast]
      · simp only [emitted_append]
        refine ⟨by simp [callCount, Event.name], by simp [callCount, Event.name],
          by simp [callCount, Event.name],
          by simp [replay, replayStep, hwm, hwb], ?_⟩
        intro e he hs hf
        simp at he
        rcases he with rfl | rfl | rfl | rfl <;>
          first
          | (simp [Event.err, Event.isStoreOp] at hs hf; done)
          | simp [Event.err, replay, replayStep, hwm, hwb, List.dropLast]
    · simp only [emitted_append]
      refine ⟨by simp [callCount, Event.name], by simp [callCount, Event.name],
        by simp [callCount, Event.name],
        by simp [replay, replayStep, hwm], ?_⟩
      intro e he hs hf
      simp at he
      rcases he with rfl | rfl | rfl <;>
        simp [Event.err, Event.isStoreOp] at hs hf
  · simp only [emitted_append]
    refine ⟨by simp [callCount, Event.name], by simp [callCount, Event.name],
      by simp [callCount, Event.name],
      by simp [replay, replayStep, hwm], ?_⟩
    intro e he hs hf
    simp at he
    rcases he with rfl | rfl <;>
      first
      | (simp [Event.err, Event.isStoreOp] at hs hf; done)
      | simp [Event.err, replay, replayStep, hwm, List.dropLast]

/-- An instance of C7 as amended: the example store refuses the body text and
leaves itself alone, so the module written before is what it holds after the
call, and the refused write is the last call. -/
theorem SaveToGraph_no_retry_no_recovery_witness :
    (SaveToGraph (demo emptyReply "WriteBodyText") ⟨0⟩ "m1" "Roads"
        "<p>roads</p>" "draw();" "roads.png" "ann" demoState).2.world = ["module m1"] ∧
    (emitted demoState (SaveToGraph (demo emptyReply "WriteBodyText") ⟨0⟩ "m1" "Roads"
        "<p>roads</p>" "draw();" "roads.png" "ann" demoState).2).getLast? =
      some (.writeBodyText ⟨3⟩ ⟨0⟩ ⟨"V m1"⟩ "<p>roads</p>" (some (.lib "store"))) :=
  have h := (SaveToGraph_no_retry_no_recovery (demo emptyReply "WriteBodyText") ⟨0⟩ "m1" "Roads"
    "<p>roads</p>" "draw();" "roads.png" "ann" demoState).2.2.2.2
    (.writeBodyText ⟨3⟩ ⟨0⟩ ⟨"V m1"⟩ "<p>roads</p>" (some (.lib "store")))
    (by rw [demo_SaveToGraph_refused_body]; simp)
    rfl
    (by simp [Event.err])
  ⟨h.2.2.trans rfl, h.1⟩

end Claims

end Bot
